import Mathlib

/-!
Verification of the SQL exploration agent in `gpt_do/wtfers/sql_wtfer.py`.

Python strings are modelled as `List Char`; the external collaborators
(sqlite cursor, sqlvalidator, sqlparse's lexer, tabulate) are parameters
of the embedding, collected in `Env`.  Everything written in the repository
itself (the sanitizer, the Sample record, the orchestration loop) is
translated function by function.
-/

set_option maxRecDepth 8000
set_option synthInstance.maxSize 2000

deriving instance DecidableEq for Except

namespace GptDo

/-- Python strings, modelled as lists of characters. -/
abbrev Str := List Char

/-- String-literal helper. -/
def lit (s : String) : Str := s.toList

/-- Characters treated as whitespace by Python's `str.strip` and the regex `\s`
(ASCII subset; exotic Unicode spaces are not modelled). -/
def isPySpace (c : Char) : Bool :=
  c = ' ' || c = '\t' || c = '\n' || c = '\r' || c = '\x0b' || c = '\x0c'

/-- Python `str.strip()`: drop whitespace from both ends. -/
def pyStrip (s : Str) : Str :=
  ((s.dropWhile isPySpace).reverse.dropWhile isPySpace).reverse

/-- Line-break characters recognised by Python `str.splitlines` (BMP subset). -/
def isLineBreak (c : Char) : Bool :=
  c = '\n' || c = '\r' || c = '\x0b' || c = '\x0c' ||
  c = '\x1c' || c = '\x1d' || c = '\x1e' || c = '\x85' ||
  c = '\u2028' || c = '\u2029'

/-- Normalise `"\r\n"` pairs to `"\n"`: Python's `splitlines` counts the
pair as a single break, and every other break character singly. -/
def stripCR : Str → Str
  | [] => []
  | '\r' :: '\n' :: rest => '\n' :: stripCR rest
  | c :: rest => c :: stripCR rest

/-- Helper for `pySplitlines` on CR-normalised text; `cur` holds the
current line reversed.  A trailing break emits no empty last line. -/
def splitlinesAux (cur : Str) : Str → List Str
  | [] => [cur.reverse]
  | c :: rest =>
    if isLineBreak c then
      cur.reverse :: (if rest.isEmpty then [] else splitlinesAux [] rest)
    else
      splitlinesAux (c :: cur) rest

/-- Python `str.splitlines()`. -/
def pySplitlines : Str → List Str
  | [] => []
  | s => splitlinesAux [] (stripCR s)

/-- Python `sep.join(l)`. -/
def pyJoin (sep : Str) : List Str → Str
  | [] => []
  | [x] => x
  | x :: xs => x ++ sep ++ pyJoin sep xs

/-- `gpt_do.wtfers.sql_wtfer.dedent`: strip every line, join with a newline,
strip the result. -/
def dedent (text : Str) : Str :=
  pyStrip (pyJoin ['\n'] ((pySplitlines text).map pyStrip))

/-- Python truthiness of an optional string (`None` and `""` are falsy). -/
def truthy : Option Str → Bool
  | none => false
  | some s => !s.isEmpty

/-- Python `str.upper` (ASCII). -/
def pyUpper (s : Str) : Str := s.map Char.toUpper

/-! ## The sqlparse token model -/

/-- The sqlparse token types the sanitizer inspects (hierarchy flattened).
`DML` and `Keyword` are the keyword family. -/
inductive TType
  | DML | Keyword | Name | Punctuation | Whitespace | Number | Wildcard | Other
  deriving DecidableEq, Repr

/-- sqlparse `ttype in T.Keyword`. -/
def TType.isKeywordFamily : TType → Bool
  | .DML => true
  | .Keyword => true
  | _ => false

/-- One sqlparse leaf token: token type and verbatim text. -/
structure Token where
  ttype : TType
  value : Str
  deriving DecidableEq, Repr

/-- sqlparse `Token.normalized`: uppercased for keyword-family tokens,
verbatim otherwise. -/
def Token.normalized (t : Token) : Str :=
  if t.ttype.isKeywordFamily then pyUpper t.value else t.value

/-- sqlparse `Token.match(ttype, [value])`: exact type comparison (`is`),
then value comparison against `normalized`, uppercasing the sought value
for keyword-family tokens. -/
def Token.matchTT (t : Token) (k : TType) (v : Str) : Bool :=
  t.ttype == k &&
    t.normalized == (if t.ttype.isKeywordFamily then pyUpper v else v)

/-- sqlparse `token.is_whitespace`. -/
def Token.isWs (t : Token) : Bool := t.ttype == TType.Whitespace

/-- A parsed statement, as the flat list of its leaf tokens.  sqlparse's
grouping is not modelled: the keywords, punctuation and whitespace the
sanitizer inspects are ungrouped top-level leaves in sqlparse's parses. -/
abbrev Statement := List Token

/-- `str(statement)`: concatenation of the token values. -/
def render (st : Statement) : Str := (st.map Token.value).flatten

/-- Helper for `tokenNext`: first non-whitespace token of the list, with its
absolute index given the index `i` of the list head. -/
def tokenNextAux : Statement → Nat → Option (Nat × Token)
  | [], _ => none
  | t :: rest, i => if t.isWs then tokenNextAux rest (i + 1) else some (i, t)

/-- sqlparse `TokenList.token_next(idx)`: the next non-whitespace token
strictly after index `idx`, with its index (comments are not modelled). -/
def tokenNext (st : Statement) (idx : Nat) : Option (Nat × Token) :=
  tokenNextAux (st.drop (idx + 1)) (idx + 1)

/-! ## External collaborators -/

/-- One result row, as the association list `dict(sqlite3.Row)` gives. -/
abbrev Row := List (Str × Str)

/-- The sanitizer's external collaborators, as parameters of the embedding:
the sqlite cursor (`exec`, raising modelled as `.error` with the message),
sqlvalidator (`isValid` plus the rendering `firstError` of
`parsed.errors[0]`), sqlparse's statement splitter `sqlParse`, and
`tabulate rows simple?` (true = "simple" format, false = "plain"). -/
structure Env where
  exec : Str → Except Str (List Row)
  isValid : Str → Bool
  firstError : Str → Str
  sqlParse : Str → List Statement
  tabulate : List Row → Bool → Str

/-! ## Limit injection and relaxation -/

/-- Python list slice assignment `l[-1:-1] = ins`: insert before the last
element (everything lands in front of an empty list). -/
def insertBeforeLast (l ins : List Token) : List Token :=
  l.take (l.length - 1) ++ ins ++ l.drop (l.length - 1)

/-- The five tokens `_apply_limit` splices in for a given limit value:
`Whitespace " ", Keyword "LIMIT", Whitespace " ", Number n, Whitespace " "`. -/
def limitTokens (n : Str) : List Token :=
  [⟨.Whitespace, lit " "⟩, ⟨.Keyword, lit "LIMIT"⟩, ⟨.Whitespace, lit " "⟩,
   ⟨.Number, n⟩, ⟨.Whitespace, lit " "⟩]

/-- `Sample._apply_limit`.  The semicolon lookup
(`statement.token_index(Token(Punctuation, ";"))`) compares by object
identity in Python (sqlparse's `Token` defines no `__eq__` and
`token_index` uses `list.index`), so the freshly constructed token is never
found, the lookup always raises `ValueError`, and the insertion index is
always `-1`: the LIMIT tokens are inserted immediately before the
statement's last token.  If the rewritten statement fails sqlvalidator the
rewrite is discarded and the original tokens are restored. -/
def applyLimit (env : Env) (st : Statement) (n : Str) : Statement :=
  if st.any (fun t => t.matchTT .Keyword (lit "LIMIT")) then st
  else
    let st2 := insertBeforeLast st (limitTokens n)
    if env.isValid (render st2) then st2 else st

/-- Index of the first token matching `(Keyword, LIMIT)`. -/
def limitIdx (st : Statement) : Option Nat :=
  st.findIdx? (fun t => t.matchTT .Keyword (lit "LIMIT"))

/-- `Sample._relax_limit`.  With a LIMIT keyword present, the next
non-whitespace token is left alone when its value is `"1"` and overwritten
with `"25"` otherwise; when no token follows the LIMIT keyword, Python
dereferences `None.value` and raises `AttributeError` (modelled as
`.error`).  Without a LIMIT keyword, falls back to `_apply_limit` with 25. -/
def relaxLimit (env : Env) (st : Statement) : Except Str Statement :=
  match limitIdx st with
  | some i =>
    match tokenNext st i with
    | none => .error (lit "AttributeError")
    | some (j, n) =>
      if n.value == lit "1" then .ok st
      else .ok (st.set j { n with value := lit "25" })
  | none => .ok (applyLimit env st (lit "25"))

/-! ## The Sample record (Turn Record) -/

/-- The `Sample` dataclass.  `reason` and `query` are optional to mirror
Python's untyped `None`; `writes` counts how many times `response` has been
assigned (instrumentation for the at-most-once audit; not a source field). -/
structure Sample where
  final : Bool
  reason : Option Str
  query : Option Str
  original_query : Option Str
  errored : Bool := false
  response : Option Str := none
  writes : Nat := 0
  deriving DecidableEq, Repr

/-- The dataclass constructor plus `__post_init__`: `original_query`
snapshots `query`. -/
def Sample.make (final : Bool) (reason query : Option Str) : Sample :=
  { final := final, reason := reason, query := query, original_query := query }

/-- `Sample.is_empty`: query `is None`, reason `is None`, and not final.
(The identity comparison with `None` is falsified by any string, including
the empty one.) -/
def Sample.is_empty (s : Sample) : Bool :=
  s.query == none && s.reason == none && !s.final

/-- The synthetic error query interpolated by `Sample._execute`
(an f-string; the message `e` is spliced in with no quoting). -/
def errorQuery (e : Str) : Str :=
  lit "SELECT 'Error: " ++ e ++ lit ". Try a different way.' as error"

/-- `Sample._execute`: store the rendered statement into `query`, execute it;
on a database error set `errored` and execute the synthetic error SELECT.
An exception raised by that second execute (e.g. when the message itself
contains a quote, making the synthetic SQL malformed) is outside the
`try` body's protection and propagates (`.error`).  Also returns the trace
of SQL strings passed to `cursor.execute`. -/
def Sample._execute (env : Env) (s : Sample) (st : Statement) :
    Except Str (Sample × List Row × List Str) :=
  match env.exec (render st) with
  | .ok rows => .ok ({ s with query := some (render st) }, rows, [render st])
  | .error e =>
    match env.exec (errorQuery e) with
    | .ok rows =>
      .ok ({ s with query := some (render st), errored := true }, rows,
           [render st, errorQuery e])
    | .error e2 => .error e2

/-- Index of the first newline at position ≥ `start`
(Python `str.index("\n", start)`). -/
def idxOfNlFrom (s : Str) (start : Nat) : Option Nat :=
  match (s.drop start).findIdx? (fun c => c == '\n') with
  | none => none
  | some j => some (start + j)

/-- `gpt_do.wtfers.sql_wtfer.truncate` with the default length 300 and
suffix.  In the `except` branch Python computes `content[:-1]`, dropping
the final character. -/
def pyTruncate (content : Str) : Str :=
  let length := 300
  let suffix := lit "\n(truncated)"
  if content.length ≤ length then content
  else
    let content2 :=
      match idxOfNlFrom content length with
      | some idx => content.take idx ++ suffix
      | none => content.take (content.length - 1) ++ suffix
    if content2.length < 2 * length then content2 else suffix

/-- The body of the `@tab` decorator, applied to the fetched rows: `None` on
zero rows; otherwise tabulate with the "simple" format, falling back to the
"plain" format when more than 10% of the non-space characters of the
truncated rendering are dashes (the float comparison `count/len > 0.1` is
modelled as `10*count > len`; a whitespace-only rendering divides by zero,
modelled as `.error`).  Returns the truncated rendering when the `truncate`
keyword is true, the full one otherwise. -/
def tabWrap (env : Env) (rows : List Row) (truncKw : Bool) :
    Except Str (Option Str) :=
  if rows.isEmpty then .ok none
  else
    let tabulated := env.tabulate rows true
    let truncated := pyTruncate tabulated
    let dashes := (truncated.filter (fun c => c == '-')).length
    let noSpace := (truncated.filter (fun c => !(c == ' '))).length
    if noSpace == 0 then .error (lit "ZeroDivisionError")
    else
      let pair :=
        if 10 * dashes > noSpace then
          let t2 := env.tabulate rows false
          (t2, pyTruncate t2)
        else (tabulated, truncated)
      .ok (some (if truncKw then pair.2 else pair.1))

/-- `Sample.execute` (the `@tab`-wrapped method).  With `truncate=True`:
inject LIMIT 2 and `fetchmany()` (`arraysize` is 2, set in `_init_db`);
with `truncate=False`: relax the limit when `final`, then `fetchall()`.
The tab wrapper then renders the rows. -/
def Sample.executeTab (env : Env) (s : Sample) (st : Statement)
    (truncKw : Bool) : Except Str (Sample × Option Str × List Str) :=
  if truncKw then
    match Sample._execute env s (applyLimit env st (lit "2")) with
    | .error e => .error e
    | .ok (s2, rows, tr) =>
      match tabWrap env (rows.take 2) truncKw with
      | .error e => .error e
      | .ok res => .ok (s2, res, tr)
  else
    match (if s.final then relaxLimit env st else .ok st) with
    | .error e => .error e
    | .ok st2 =>
      match Sample._execute env s st2 with
      | .error e => .error e
      | .ok (s2, rows, tr) =>
        match tabWrap env rows truncKw with
        | .error e => .error e
        | .ok res => .ok (s2, res, tr)

/-- `Sample.SAFE_TABLES`. -/
def SAFE_TABLES : List Str := [lit "sqlite_master", lit "sqlite_temp_master"]

/-- The FROM-target extraction at the top of `execute_and_format`: the
value of the next non-whitespace token after the first `(Keyword, FROM)`
token; any failure (no FROM, nothing after it) yields `None` through the
bare `except Exception`. -/
def fromTable (st : Statement) : Option Str :=
  match st.findIdx? (fun t => t.matchTT .Keyword (lit "FROM")) with
  | none => none
  | some i => (tokenNext st i).map (fun p => p.2.value)

/-- `Sample.execute_and_format`: classify SELECT/PRAGMA over the flattened
tokens; return `None` when the statement is neither; short-circuit an
invalid SELECT with the validator's first error; otherwise execute with
`truncate = not (final or pragma or table in SAFE_TABLES)`. -/
def Sample.execute_and_format (env : Env) (s : Sample) (st : Statement) :
    Except Str (Sample × Option Str × List Str) :=
  if !(st.any (fun t => t.matchTT .DML (lit "SELECT")))
      && !(st.any (fun t => t.matchTT .Name (lit "PRAGMA"))) then
    .ok (s, none, [])
  else if (st.any (fun t => t.matchTT .DML (lit "SELECT")))
      && !env.isValid (render st) then
    .ok (s, some (env.firstError (render st)), [])
  else
    Sample.executeTab env s st
      (!(s.final || st.any (fun t => t.matchTT .Name (lit "PRAGMA"))
         || ((fromTable st).map (fun tb => SAFE_TABLES.contains tb)).getD false))

/-- Fold of `execute_and_format` over the parsed statements, threading the
(mutated) sample and accumulating the per-statement results and the trace. -/
def populateAux (env : Env) :
    Sample → List Statement → List (Option Str) → List Str →
    Except Str (Sample × List (Option Str) × List Str)
  | s, [], acc, tr => .ok (s, acc.reverse, tr)
  | s, st :: rest, acc, tr =>
    match Sample.execute_and_format env s st with
    | .error e => .error e
    | .ok (s2, r, tr2) => populateAux env s2 rest (r :: acc) (tr ++ tr2)

/-- `Sample.populate`: a no-op when `query` is falsy; otherwise parse
(`original_query` when final, else `query`), run every statement, drop the
falsy results (`filter(None, ...)` removes both `None` and `""`), and join
the rest with newlines into `response`. -/
def Sample.populate (env : Env) (s : Sample) : Except Str (Sample × List Str) :=
  if !truthy s.query then .ok (s, [])
  else
    match populateAux env s
        (env.sqlParse (if s.final then s.original_query.getD []
                       else s.query.getD [])) [] [] with
    | .error e => .error e
    | .ok (s2, results, tr) =>
      .ok ({ s2 with
              response := some (pyJoin (lit "\n")
                ((results.filterMap id).filter (fun r => !r.isEmpty))),
              writes := s2.writes + 1 }, tr)

/-! ## Parsing model output (`Sample.parse`)

The three `re.search` patterns are modelled by specialised scanners:

* `FINAL:\s*(True|False)` with `re.I` — `findFinal`.  The regex engine
  returns the leftmost position where the whole pattern matches; since
  `True`/`False` start with a non-space character, the greedy `\s*` is
  equivalent to skipping the maximal whitespace run.
* `REASON:\s*(.*)` — matches at the first literal `REASON:` (the rest of
  the pattern can always match); the group is the text from the end of the
  maximal whitespace run (which may cross newlines) to the end of that
  line (`.` stops at `\n`).
* `START-QUERY(.*)END-QUERY` with `re.DOTALL` — the greedy group runs from
  the first `START-QUERY` to the last `END-QUERY`; the pattern matches iff
  some `END-QUERY` ends after the first `START-QUERY` (an `END-QUERY`
  following a later `START-QUERY` also follows the first one). -/

/-- Case-insensitive (ASCII) prefix test, for the `re.I` patterns. -/
def ciStartsWith (pat s : Str) : Bool :=
  decide (pat.length ≤ s.length) && pyUpper (s.take pat.length) == pyUpper pat

/-- After a `FINAL:` marker: skip the whitespace run, then read a
case-insensitive `True`/`False`. -/
def finalAfterMarker (s : Str) : Option Bool :=
  if ciStartsWith (lit "TRUE") (s.dropWhile isPySpace) then some true
  else if ciStartsWith (lit "FALSE") (s.dropWhile isPySpace) then some false
  else none

/-- `re.search(r"FINAL:\s*(True|False)", raw, re.I)`, as the lowered truth
value of the group (`None` when the pattern never matches). -/
def findFinal : Str → Option Bool
  | [] => none
  | c :: rest =>
    if ciStartsWith (lit "FINAL:") (c :: rest) then
      match finalAfterMarker ((c :: rest).drop 6) with
      | some b => some b
      | none => findFinal rest
    else findFinal rest

/-- Split at the first occurrence of `pat`: `some (before, after)` with
`s = before ++ pat ++ after`, the occurrence being the leftmost one. -/
def splitFirst (pat : Str) (s : Str) : Option (Str × Str) :=
  match s with
  | [] => if pat.isEmpty then some ([], []) else none
  | c :: rest =>
    if pat.isPrefixOf (c :: rest) then some ([], (c :: rest).drop pat.length)
    else
      match splitFirst pat rest with
      | some (b, a) => some (c :: b, a)
      | none => none

/-- Split at the last occurrence of `pat` (via the first occurrence of the
reversed pattern in the reversed string). -/
def splitLast (pat : Str) (s : Str) : Option (Str × Str) :=
  match splitFirst pat.reverse s.reverse with
  | none => none
  | some (b, a) => some (a.reverse, b.reverse)

/-- `.` in a pattern without DOTALL: everything up to the next newline. -/
def takeToNl (s : Str) : Str := s.takeWhile (fun c => !(c == '\n'))

/-- The stripped group of `re.search(r"REASON:\s*(.*)", raw)`. -/
def findReason (raw : Str) : Option Str :=
  (splitFirst (lit "REASON:") raw).map
    (fun p => pyStrip (takeToNl (p.2.dropWhile isPySpace)))

/-- The stripped group of
`re.search(r"START-QUERY(.*)END-QUERY", raw, re.DOTALL)`. -/
def findQuery (raw : Str) : Option Str :=
  match splitFirst (lit "START-QUERY") raw with
  | none => none
  | some (_, rest) =>
    match splitLast (lit "END-QUERY") rest with
    | none => none
    | some (mid, _) => some (pyStrip mid)

/-- Python `str.removeprefix`-style helper: drop `pat` from the front when
it is there. -/
def pyRemoveStart (pat s : Str) : Str :=
  if pat.isPrefixOf s then s.drop pat.length else s

/-- Python `str.removesuffix`-style helper: drop `pat` from the back when
it is there. -/
def pyRemoveEnd (pat s : Str) : Str :=
  if pat.isSuffixOf s then s.take (s.length - pat.length) else s

/-- `Sample.parse`.  `final` defaults to false; `reason` to `""`; the query
is the stripped `START-QUERY ... END-QUERY` group, with the recovery
heuristic (no `FINAL:` match and no `REASON:` occurrence): strip the raw
text, shave a leading `FINAL:` and a trailing `END-QUERY`, keep it as the
query and promote `final` to true iff sqlvalidator accepts it. -/
def Sample.parse (env : Env) (raw : Str) : Sample :=
  let finalM := findFinal raw
  let reasonM := findReason raw
  let reason := reasonM.getD []
  let fq : Bool × Str :=
    match findQuery raw with
    | some q => (finalM.getD false, q)
    | none =>
      if reasonM.isNone && finalM.isNone then
        let q := pyRemoveEnd (lit "END-QUERY") (pyRemoveStart (lit "FINAL:") (pyStrip raw))
        if !env.isValid q then (false, [])
        else (true, q)
      else (finalM.getD false, [])
  Sample.make fq.1 (some reason) (some fq.2)

/-! ## Formatting (`Sample.format`) -/

/-- Python `str(x)` of an optional string: `None` renders as `"None"`. -/
def pyShowOpt : Option Str → Str
  | none => lit "None"
  | some s => s

/-- Python `str` of a bool. -/
def pyShowBool (b : Bool) : Str := if b then lit "True" else lit "False"

/-- `Sample.format`: the indented f-string template passed through
`dedent` (every line stripped, joined with newlines, outer strip). -/
def Sample.format (s : Sample) : Str :=
  dedent (
    lit "\n            FINAL: " ++ pyShowBool s.final ++
    lit "\n            REASON: " ++ pyShowOpt s.reason ++
    lit "\n\n            START-QUERY\n            " ++ pyShowOpt s.query ++
    lit "\n            END-QUERY\n\n            RESPONSE:\n            " ++
    pyShowOpt s.response ++ lit "\n            ")

/-! ## The orchestrator loop (`SQLWTFer`) -/

/-- `SQLWTFer.MODELS`. -/
def MODELS : List Str := [lit "code-davinci-002", lit "text-davinci-003"]

/-- The loop state the claims touch: the Transcript (`examples`) and the
current model identifier.  The prompt/steps strings carry no claim-relevant
state. -/
structure WTFState where
  examples : List Sample
  model : Str
  deriving DecidableEq, Repr

/-- `SQLWTFer.errors`: number of Transcript records with `errored` set. -/
def SQLWTFer.errors (st : WTFState) : Nat :=
  (st.examples.filter (fun s => s.errored)).length

/-- `SQLWTFer.next_model`: the first model of `MODELS` different from the
current one (`next` cannot exhaust: the two models are distinct). -/
def SQLWTFer.next_model (st : WTFState) : Str :=
  (MODELS.find? (fun m => !(m == st.model))).getD []

/-- The state effects of `SQLWTFer._query` before the API call: with more
than one errored record, rotate the model and pop exactly `errors` trailing
records.  (The `errors == 1` branch only changes generation penalties,
which carry no state.) -/
def SQLWTFer.failover (st : WTFState) : WTFState :=
  let e := SQLWTFer.errors st
  if e > 1 then
    { model := SQLWTFer.next_model st,
      examples := st.examples.take (st.examples.length - e) }
  else st

/-- What one `__next__` call produces: `stop` models `raise StopIteration`,
`yield s` models `return s`. -/
inductive Outcome
  | stop
  | yield (s : Sample)
  deriving DecidableEq, Repr

/-- Replace the last element (used for the Python object aliasing: the
appended `sample` is the very object later mutated by populate/demotion). -/
def replaceLast (l : List Sample) (s : Sample) : List Sample :=
  l.dropLast ++ [s]

/-- The tail end of `__next__` once the new `sample` has been parsed and
(appendage decided) `st3` holds the possibly-extended Transcript: for a
final sample, populate it at once and either demote-and-yield (errored) or
raise StopIteration; otherwise yield.  The appended `sample` is the very
Python object later mutated by populate/demotion, hence `replaceLast`. -/
def SQLWTFer.finishStep (env : Env) (st3 : WTFState) (sample : Sample) :
    Except Str (WTFState × Outcome) :=
  if sample.final then
    match Sample.populate env sample with
    | .error e => .error e
    | .ok (s2, _) =>
      if s2.errored then
        .ok ({ st3 with examples := replaceLast st3.examples { s2 with final := false } },
             .yield { s2 with final := false })
      else
        .ok ({ st3 with examples := replaceLast st3.examples s2 }, .stop)
  else .ok (st3, .yield sample)

/-- Middle of `__next__`: append the parsed sample unless `is_empty`,
then finish. -/
def SQLWTFer.appendStep (env : Env) (st2 : WTFState) (sample : Sample) :
    Except Str (WTFState × Outcome) :=
  SQLWTFer.finishStep env
    (if !sample.is_empty then { st2 with examples := st2.examples ++ [sample] }
     else st2) sample

/-- `SQLWTFer.__next__`: populate the tail record (an empty Transcript
would raise IndexError); apply the failover policy (the state effects of
`_query`); parse the model's raw completion wrapped as
`FINAL: {raw}\nEND-QUERY`; then append/finish.  The raw completion text is
an input (the transport layer is external).  Database exceptions escaping
`populate` propagate (only `StopIteration` is caught in the source). -/
def SQLWTFer.nextStep (env : Env) (st : WTFState) (raw : Str) :
    Except Str (WTFState × Outcome) :=
  match st.examples.getLast? with
  | none => .error (lit "IndexError")
  | some tail =>
    match Sample.populate env tail with
    | .error e => .error e
    | .ok (tail2, _) =>
      SQLWTFer.appendStep env
        (SQLWTFer.failover { st with examples := replaceLast st.examples tail2 })
        (Sample.parse env (lit "FINAL: " ++ raw ++ lit "\nEND-QUERY"))

/-- `SQLWTFer.result`: the most recent sample with a truthy query, with its
absolute index; its `final` flag is forced to true (a mutation of the
aliased record).  The `cached_property` cache is modelled as recomputation;
within a single `execute` call the two coincide. -/
def SQLWTFer.result (st : WTFState) : Option (Nat × Sample) :=
  match st.examples.reverse.findIdx? (fun s => truthy s.query) with
  | none => none
  | some j =>
    let i := st.examples.length - 1 - j
    match st.examples[i]? with
    | none => none
    | some s => some (i, { s with final := true })

/-- `SQLWTFer.execute`: populate the result record (with `final` forced
true, the aliased Transcript entry updates too), then return the response
of the most recent sample with a truthy (non-`None`, non-empty) response.
`next` on an exhausted generator raises StopIteration (`.error`). -/
def SQLWTFer.execute (env : Env) (st : WTFState) :
    Except Str (Str × WTFState) :=
  match SQLWTFer.result st with
  | none => .error (lit "StopIteration")
  | some (i, r) =>
    match Sample.populate env r with
    | .error e => .error e
    | .ok (r2, _) =>
      match (st.examples.set i r2).reverse.find? (fun s => truthy s.response) with
      | none => .error (lit "StopIteration")
      | some s => .ok (s.response.getD [], { st with examples := st.examples.set i r2 })

/-! ## Shared fixtures and helper lemmas -/

/-- Number of tokens matching `(Keyword, LIMIT)`. -/
def countLimit (st : Statement) : Nat :=
  (st.filter (fun t => t.matchTT .Keyword (lit "LIMIT"))).length

/-- A concrete environment: validator accepts everything, the cursor
returns no rows, tabulate renders a fixed dash-free cell. -/
def envAccept : Env :=
  { exec := fun _ => .ok [], isValid := fun _ => true, firstError := fun _ => [],
    sqlParse := fun _ => [], tabulate := fun _ _ => lit "T" }

/-- A concrete environment whose validator rejects everything. -/
def envReject : Env := { envAccept with isValid := fun _ => false }

/-- `SELECT 1` with no trailing semicolon, as sqlparse tokenizes it. -/
def stmtSelectOne : Statement :=
  [⟨.DML, lit "SELECT"⟩, ⟨.Whitespace, lit " "⟩, ⟨.Number, lit "1"⟩]

/-- `SELECT * FROM t;` as sqlparse tokenizes it (the semicolon last). -/
def stmtSelectFromT : Statement :=
  [⟨.DML, lit "SELECT"⟩, ⟨.Whitespace, lit " "⟩, ⟨.Wildcard, lit "*"⟩,
   ⟨.Whitespace, lit " "⟩, ⟨.Keyword, lit "FROM"⟩, ⟨.Whitespace, lit " "⟩,
   ⟨.Name, lit "t"⟩, ⟨.Punctuation, lit ";"⟩]

/-- `INSERT INTO t VALUES (1)` as sqlparse tokenizes it (flattened). -/
def stmtInsert : Statement :=
  [⟨.DML, lit "INSERT"⟩, ⟨.Whitespace, lit " "⟩, ⟨.Keyword, lit "INTO"⟩,
   ⟨.Whitespace, lit " "⟩, ⟨.Name, lit "t"⟩, ⟨.Whitespace, lit " "⟩,
   ⟨.Keyword, lit "VALUES"⟩, ⟨.Whitespace, lit " "⟩, ⟨.Punctuation, lit "("⟩,
   ⟨.Number, lit "1"⟩, ⟨.Punctuation, lit ")"⟩]

/-- A blank non-final record. -/
def sampleBlank : Sample := Sample.make false (some (lit "reason")) (some (lit "q"))

/-- If no token matches `(Keyword, LIMIT)`, the statement's LIMIT count is 0. -/
theorem countLimit_eq_zero {st : Statement}
    (h : st.any (fun t => t.matchTT .Keyword (lit "LIMIT")) = false) :
    countLimit st = 0 := by
  have h' := List.any_eq_false.mp h
  unfold countLimit
  rw [List.filter_eq_nil_iff.mpr (fun a ha => by simpa using h' a ha)]
  rfl

/-- The spliced-in token list contains exactly one LIMIT keyword token,
whatever the numeric value. -/
theorem countLimit_limitTokens (n : Str) : countLimit (limitTokens n) = 1 := by
  unfold countLimit limitTokens
  simp [Token.matchTT, Token.normalized, TType.isKeywordFamily, lit, pyUpper]

/-- `countLimit` adds over appends. -/
theorem countLimit_append (a b : Statement) :
    countLimit (a ++ b) = countLimit a + countLimit b := by
  unfold countLimit
  simp [List.filter_append]

/-- Inserting the LIMIT tokens into a LIMIT-free statement yields exactly
one LIMIT keyword token. -/
theorem countLimit_insert {st : Statement} (n : Str)
    (h : st.any (fun t => t.matchTT .Keyword (lit "LIMIT")) = false) :
    countLimit (insertBeforeLast st (limitTokens n)) = 1 := by
  have h' := List.any_eq_false.mp h
  have htake : countLimit (st.take (st.length - 1)) = 0 :=
    countLimit_eq_zero (List.any_eq_false.mpr
      (fun a ha => h' a (List.take_subset _ _ ha)))
  have hdrop : countLimit (st.drop (st.length - 1)) = 0 :=
    countLimit_eq_zero (List.any_eq_false.mpr
      (fun a ha => h' a (List.drop_subset _ _ ha)))
  unfold insertBeforeLast
  rw [countLimit_append, countLimit_append, htake, hdrop, countLimit_limitTokens n]

/-- The spliced-in token list makes `any (Keyword, LIMIT)` true. -/
theorem any_limit_insert (st : Statement) (n : Str) :
    (insertBeforeLast st (limitTokens n)).any
      (fun t => t.matchTT .Keyword (lit "LIMIT")) = true := by
  apply List.any_eq_true.mpr
  refine ⟨⟨.Keyword, lit "LIMIT"⟩, ?_, by decide⟩
  unfold insertBeforeLast limitTokens
  simp

/-- `_apply_limit` is idempotent for a fixed validator. -/
theorem applyLimit_idem (env : Env) (st : Statement) (n : Str) :
    applyLimit env (applyLimit env st n) n = applyLimit env st n := by
  by_cases h : st.any (fun t => t.matchTT .Keyword (lit "LIMIT")) = true
  · unfold applyLimit
    simp [h]
  · have h' : st.any (fun t => t.matchTT .Keyword (lit "LIMIT")) = false :=
      Bool.not_eq_true _ ▸ Bool.of_not_eq_true h
    by_cases hv : env.isValid (render (insertBeforeLast st (limitTokens n))) = true
    · have h1 : applyLimit env st n = insertBeforeLast st (limitTokens n) := by
        unfold applyLimit
        simp [h', hv]
      rw [h1]
      unfold applyLimit
      simp [any_limit_insert st n]
    · have hv' : env.isValid (render (insertBeforeLast st (limitTokens n))) = false := by
        simpa using hv
      have h1 : applyLimit env st n = st := by
        unfold applyLimit
        simp [h', hv']
      rw [h1]
      exact h1

/-! ## C1 -/

/-- C1: a statement none of whose tokens matches `(DML, SELECT)` or
`(Name, PRAGMA)` makes `execute_and_format` return `None`, with an empty
cursor-execute trace (the cursor is never touched) and the record
unchanged. -/
theorem C1_reject_non_select_pragma (env : Env) (s : Sample) (st : Statement)
    (hsel : st.any (fun t => t.matchTT .DML (lit "SELECT")) = false)
    (hprag : st.any (fun t => t.matchTT .Name (lit "PRAGMA")) = false) :
    Sample.execute_and_format env s st = .ok (s, none, []) := by
  unfold Sample.execute_and_format
  simp [hsel, hprag]

/-- C1 witness: the INSERT statement is rejected without touching the
cursor. -/
theorem C1_witness :
    (stmtInsert.any (fun t => t.matchTT .DML (lit "SELECT")) = false) ∧
    (stmtInsert.any (fun t => t.matchTT .Name (lit "PRAGMA")) = false) ∧
    Sample.execute_and_format envAccept sampleBlank stmtInsert
      = .ok (sampleBlank, none, []) :=
  ⟨by decide, by decide,
   C1_reject_non_select_pragma envAccept sampleBlank stmtInsert
     (by decide) (by decide)⟩

/-! ## C2 -/

/-- C2 (counterexample): for `SELECT 1` (no trailing semicolon) and a
validator that accepts the rewrite, `_apply_limit` does NOT place the
LIMIT clause at the end: the semicolon lookup always fails (object
identity), the insertion index is always `-1`, and the rewrite lands
before the last token, yielding `SELECT  LIMIT 2 1` — the claim's
"inserted at the end if there is no semicolon" is false on the code. -/
theorem C2_counterexample :
    applyLimit envAccept stmtSelectOne (lit "2") ≠ stmtSelectOne ∧
    render (applyLimit envAccept stmtSelectOne (lit "2")) = lit "SELECT  LIMIT 2 1" ∧
    (applyLimit envAccept stmtSelectOne (lit "2")).getLast? = some ⟨.Number, lit "1"⟩ := by
  refine ⟨by decide, by decide, by decide⟩

/-- C2 (amended): for every statement with no `(Keyword, LIMIT)` token,
non-final sanitization splices exactly one ` LIMIT 2 ` clause immediately
before the statement's LAST token (which is the trailing semicolon
whenever the statement ends in one) provided the rewrite still validates;
if the rewrite fails validation the original statement is used unmodified;
and re-applying the sanitization to the outcome is a no-op either way. -/
theorem C2_amended (env : Env) (st : Statement)
    (hno : st.any (fun t => t.matchTT .Keyword (lit "LIMIT")) = false) :
    (env.isValid (render (insertBeforeLast st (limitTokens (lit "2")))) = true →
      applyLimit env st (lit "2") = insertBeforeLast st (limitTokens (lit "2")) ∧
      countLimit (applyLimit env st (lit "2")) = 1) ∧
    (env.isValid (render (insertBeforeLast st (limitTokens (lit "2")))) = false →
      applyLimit env st (lit "2") = st) ∧
    applyLimit env (applyLimit env st (lit "2")) (lit "2")
      = applyLimit env st (lit "2") := by
  refine ⟨?_, ?_, applyLimit_idem env st (lit "2")⟩
  · intro hv
    have h1 : applyLimit env st (lit "2") = insertBeforeLast st (limitTokens (lit "2")) := by
      unfold applyLimit
      simp [hno, hv]
    exact ⟨h1, h1 ▸ countLimit_insert (lit "2") hno⟩
  · intro hv
    unfold applyLimit
    simp [hno, hv]

/-- C2 witness: `SELECT * FROM t;` (semicolon last) with an accepting
validator gets exactly one LIMIT 2 clause, spliced before the trailing
semicolon, and the sanitization is idempotent on the result. -/
theorem C2_witness :
    (stmtSelectFromT.any (fun t => t.matchTT .Keyword (lit "LIMIT")) = false) ∧
    applyLimit envAccept stmtSelectFromT (lit "2")
      = insertBeforeLast stmtSelectFromT (limitTokens (lit "2")) ∧
    render (applyLimit envAccept stmtSelectFromT (lit "2"))
      = lit "SELECT * FROM t LIMIT 2 ;" ∧
    countLimit (applyLimit envAccept stmtSelectFromT (lit "2")) = 1 ∧
    applyLimit envAccept (applyLimit envAccept stmtSelectFromT (lit "2")) (lit "2")
      = applyLimit envAccept stmtSelectFromT (lit "2") := by
  have h := C2_amended envAccept stmtSelectFromT (by decide)
  have h1 := (h.1 (by decide)).1
  have h2 := (h.1 (by decide)).2
  exact ⟨by decide, h1, by decide, h2, h.2.2⟩

/-! ## C3 -/

/-- C3 counterexample: a LIMIT-free final statement for which limit
relaxation inserts nothing.  `SELECT 1` has no semicolon, so the LIMIT 25
splice lands before the last token and renders as the garbage SQL
`SELECT  LIMIT 25 1`; with the validator rejecting that rewrite (as the
real sqlvalidator does), `_relax_limit` returns the statement unchanged —
no `LIMIT 25` is inserted, contradicting the claim's third clause. -/
theorem C3_counterexample :
    render (insertBeforeLast stmtSelectOne (limitTokens (lit "25")))
      = lit "SELECT  LIMIT 25 1" ∧
    envReject.isValid
      (render (insertBeforeLast stmtSelectOne (limitTokens (lit "25")))) = false ∧
    relaxLimit envReject stmtSelectOne = .ok stmtSelectOne ∧
    countLimit stmtSelectOne = 0 := by
  refine ⟨by decide, by decide, by decide, by decide⟩

/-- C3 (amended): limit relaxation of a final statement leaves an explicit
`LIMIT 1` untouched, rewrites any other explicit LIMIT value to 25 in
place, and, when no LIMIT clause is present, splices a single ` LIMIT 25 `
clause immediately before the statement's last token IF the rewritten
statement passes sqlvalidator — otherwise the rewrite is discarded and the
statement is returned without any LIMIT clause. -/
theorem C3_amended_relax (env : Env) (st : Statement) :
    (∀ i j n, limitIdx st = some i → tokenNext st i = some (j, n) →
        n.value = lit "1" → relaxLimit env st = .ok st) ∧
    (∀ i j n, limitIdx st = some i → tokenNext st i = some (j, n) →
        n.value ≠ lit "1" →
        relaxLimit env st = .ok (st.set j { n with value := lit "25" })) ∧
    (limitIdx st = none →
      env.isValid (render (insertBeforeLast st (limitTokens (lit "25")))) = true →
      relaxLimit env st = .ok (insertBeforeLast st (limitTokens (lit "25"))) ∧
      countLimit (insertBeforeLast st (limitTokens (lit "25"))) = 1) ∧
    (limitIdx st = none →
      env.isValid (render (insertBeforeLast st (limitTokens (lit "25")))) = false →
      relaxLimit env st = .ok st) := by
  refine ⟨?_, ?_, ?_, ?_⟩
  · intro i j n hi hn hv
    simp [relaxLimit, hi, hn, hv]
  · intro i j n hi hn hv
    have hb : (n.value == lit "1") = false := beq_eq_false_iff_ne.mpr hv
    simp [relaxLimit, hi, hn, hb]
  · intro hi hv
    have hno : st.any (fun t => t.matchTT .Keyword (lit "LIMIT")) = false := by
      apply List.any_eq_false.mpr
      intro a ha
      have := List.findIdx?_eq_none_iff.mp hi a ha
      simpa using this
    constructor
    · simp [relaxLimit, hi, applyLimit, hno, hv]
    · exact countLimit_insert (lit "25") hno
  · intro hi hv
    have hno : st.any (fun t => t.matchTT .Keyword (lit "LIMIT")) = false := by
      apply List.any_eq_false.mpr
      intro a ha
      have := List.findIdx?_eq_none_iff.mp hi a ha
      simpa using this
    simp [relaxLimit, hi, applyLimit, hno, hv]

/-- C3 amended witness: `LIMIT 1` untouched; `LIMIT 5` raised to 25; a
LIMIT-free statement whose rewrite validates gets a single LIMIT 25
clause; a LIMIT-free statement whose rewrite is rejected stays
unchanged. -/
theorem C3_amended_witness :
    relaxLimit envAccept
      (stmtSelectOne ++ [⟨.Whitespace, lit " "⟩, ⟨.Keyword, lit "LIMIT"⟩,
        ⟨.Whitespace, lit " "⟩, ⟨.Number, lit "1"⟩])
      = .ok (stmtSelectOne ++ [⟨.Whitespace, lit " "⟩, ⟨.Keyword, lit "LIMIT"⟩,
        ⟨.Whitespace, lit " "⟩, ⟨.Number, lit "1"⟩]) ∧
    relaxLimit envAccept
      (stmtSelectOne ++ [⟨.Whitespace, lit " "⟩, ⟨.Keyword, lit "LIMIT"⟩,
        ⟨.Whitespace, lit " "⟩, ⟨.Number, lit "5"⟩])
      = .ok (stmtSelectOne ++ [⟨.Whitespace, lit " "⟩, ⟨.Keyword, lit "LIMIT"⟩,
        ⟨.Whitespace, lit " "⟩, ⟨.Number, lit "25"⟩]) ∧
    relaxLimit envAccept stmtSelectFromT
      = .ok (insertBeforeLast stmtSelectFromT (limitTokens (lit "25"))) ∧
    countLimit (insertBeforeLast stmtSelectFromT (limitTokens (lit "25"))) = 1 ∧
    relaxLimit envReject stmtSelectFromT = .ok stmtSelectFromT := by
  have h1 := (C3_amended_relax envAccept
    (stmtSelectOne ++ [⟨.Whitespace, lit " "⟩, ⟨.Keyword, lit "LIMIT"⟩,
      ⟨.Whitespace, lit " "⟩, ⟨.Number, lit "1"⟩])).1 4 6
      ⟨.Number, lit "1"⟩ (by decide) (by decide) (by decide)
  have h2 := (C3_amended_relax envAccept
    (stmtSelectOne ++ [⟨.Whitespace, lit " "⟩, ⟨.Keyword, lit "LIMIT"⟩,
      ⟨.Whitespace, lit " "⟩, ⟨.Number, lit "5"⟩])).2.1 4 6
      ⟨.Number, lit "5"⟩ (by decide) (by decide) (by decide)
  have h3 := (C3_amended_relax envAccept stmtSelectFromT).2.2.1 (by decide) (by decide)
  have h4 := (C3_amended_relax envReject stmtSelectFromT).2.2.2 (by decide) (by decide)
  refine ⟨h1, ?_, h3.1, h3.2, h4⟩
  rw [h2]
  decide

/-! ## C6 -/

/-- C6: with strictly more than one errored Transcript record at
model-call time, the failover policy pops exactly `errors` trailing
records and switches to the other element of the two-model set. -/
theorem C6_failover (st : WTFState) (hm : st.model ∈ MODELS)
    (he : 1 < SQLWTFer.errors st) :
    (SQLWTFer.failover st).examples
        = st.examples.take (st.examples.length - SQLWTFer.errors st) ∧
    (SQLWTFer.failover st).examples.length
        = st.examples.length - SQLWTFer.errors st ∧
    (SQLWTFer.failover st).model ∈ MODELS ∧
    (SQLWTFer.failover st).model ≠ st.model := by
  have hle : SQLWTFer.errors st ≤ st.examples.length := by
    unfold SQLWTFer.errors
    exact List.length_filter_le _ _
  have hfo : SQLWTFer.failover st =
      { model := SQLWTFer.next_model st,
        examples := st.examples.take (st.examples.length - SQLWTFer.errors st) } := by
    unfold SQLWTFer.failover
    simp [he]
  have hmodel : (SQLWTFer.failover st).model = SQLWTFer.next_model st := by
    rw [hfo]
  have hex : (SQLWTFer.failover st).examples
      = st.examples.take (st.examples.length - SQLWTFer.errors st) := by
    rw [hfo]
  refine ⟨hex, ?_, ?_, ?_⟩
  · rw [hex, List.length_take]
    omega
  · rw [hmodel]
    unfold MODELS at hm
    rcases List.mem_cons.mp hm with h | h
    · unfold SQLWTFer.next_model
      rw [h]
      decide
    · have h' : st.model = lit "text-davinci-003" := by simpa using h
      unfold SQLWTFer.next_model
      rw [h']
      decide
  · rw [hmodel]
    unfold MODELS at hm
    rcases List.mem_cons.mp hm with h | h
    · unfold SQLWTFer.next_model
      rw [h]
      decide
    · have h' : st.model = lit "text-davinci-003" := by simpa using h
      unfold SQLWTFer.next_model
      rw [h']
      decide

/-! ## C4 -/

/-- The sqlite message for an unterminated quote: it contains a quote. -/
def quoteMsg : Str := lit "unrecognized token: \"'\""

/-- Cursor model for the C4 failing input: executing the statement raises
with a quote-bearing message; the synthetic error SELECT interpolating
that message is itself malformed SQL (the quote ends the string literal
early), so the cursor raises again — exactly what a real sqlite cursor
does on malformed SQL. -/
def envQuoteBug : Env :=
  { exec := fun q =>
      if q == lit "SELECT 'x" then .error quoteMsg
      else if q == errorQuery quoteMsg then .error (lit "near \"Error\": syntax error")
      else .ok [],
    isValid := fun _ => true, firstError := fun _ => [],
    sqlParse := fun _ => [], tabulate := fun _ _ => lit "T" }

/-- `SELECT 'x` — an unterminated string literal, as sqlparse lexes it. -/
def stmtBadQuote : Statement :=
  [⟨.DML, lit "SELECT"⟩, ⟨.Whitespace, lit " "⟩, ⟨.Other, lit "'x"⟩]

/-- C4 (code bug): when the database error message itself contains a
quote, the synthetic error SELECT is malformed, its execution raises, and
the exception propagates out of `_execute` — the claimed
"never propagated, for any exception message" fails.  The second conjunct
exhibits the malformed synthetic query the code builds. -/
theorem C4_quote_propagates :
    Sample._execute envQuoteBug sampleBlank stmtBadQuote
      = .error (lit "near \"Error\": syntax error") ∧
    render stmtBadQuote = lit "SELECT 'x" ∧
    errorQuery quoteMsg
      = lit "SELECT 'Error: unrecognized token: \"'\". Try a different way.' as error" := by
  refine ⟨by decide, by decide, by decide⟩

/-! ## Field-preservation lemmas for populate/execute -/

/-- `_execute` rewrites only `query` and `errored`. -/
theorem _execute_fields (env : Env) (s : Sample) (st : Statement)
    {s' : Sample} {rows : List Row} {tr : List Str}
    (h : Sample._execute env s st = .ok (s', rows, tr)) :
    s'.writes = s.writes ∧ s'.response = s.response ∧ s'.final = s.final := by
  unfold Sample._execute at h
  split at h
  · simp only [Except.ok.injEq, Prod.mk.injEq] at h
    rw [← h.1]
    exact ⟨rfl, rfl, rfl⟩
  · split at h
    · simp only [Except.ok.injEq, Prod.mk.injEq] at h
      rw [← h.1]
      exact ⟨rfl, rfl, rfl⟩
    · simp at h

/-- `executeTab` rewrites only `query` and `errored`. -/
theorem executeTab_fields (env : Env) (s : Sample) (st : Statement) (k : Bool)
    {s' : Sample} {r : Option Str} {tr : List Str}
    (h : Sample.executeTab env s st k = .ok (s', r, tr)) :
    s'.writes = s.writes ∧ s'.response = s.response ∧ s'.final = s.final := by
  unfold Sample.executeTab at h
  split at h
  · split at h
    · simp at h
    · rename_i s2 rows tra heq
      split at h
      · simp at h
      · simp only [Except.ok.injEq, Prod.mk.injEq] at h
        rw [← h.1]
        exact _execute_fields env s _ heq
  · split at h
    · simp at h
    · split at h
      · simp at h
      · rename_i s2 rows tra heq
        split at h
        · simp at h
        · simp only [Except.ok.injEq, Prod.mk.injEq] at h
          rw [← h.1]
          exact _execute_fields env s _ heq

/-- `execute_and_format` rewrites only `query` and `errored`. -/
theorem execute_and_format_fields (env : Env) (s : Sample) (st : Statement)
    {s' : Sample} {r : Option Str} {tr : List Str}
    (h : Sample.execute_and_format env s st = .ok (s', r, tr)) :
    s'.writes = s.writes ∧ s'.response = s.response ∧ s'.final = s.final := by
  unfold Sample.execute_and_format at h
  split at h
  · simp only [Except.ok.injEq, Prod.mk.injEq] at h
    rw [← h.1]
    exact ⟨rfl, rfl, rfl⟩
  · split at h
    · simp only [Except.ok.injEq, Prod.mk.injEq] at h
      rw [← h.1]
      exact ⟨rfl, rfl, rfl⟩
    · exact executeTab_fields env s st _ h

/-- `populateAux` rewrites only `query` and `errored` of the threaded
sample. -/
theorem populateAux_fields (env : Env) :
    ∀ (stmts : List Statement) (s : Sample) (acc : List (Option Str))
      (tr : List Str) {s' : Sample} {res : List (Option Str)} {tr' : List Str},
    populateAux env s stmts acc tr = .ok (s', res, tr') →
    s'.writes = s.writes ∧ s'.response = s.response ∧ s'.final = s.final := by
  intro stmts
  induction stmts with
  | nil =>
    intro s acc tr s' res tr' h
    unfold populateAux at h
    simp only [Except.ok.injEq, Prod.mk.injEq] at h
    rw [← h.1]
    exact ⟨rfl, rfl, rfl⟩
  | cons st rest ih =>
    intro s acc tr s' res tr' h
    unfold populateAux at h
    cases h1 : Sample.execute_and_format env s st with
    | ok v =>
      obtain ⟨sa, ra, tra⟩ := v
      rw [h1] at h
      have ha := execute_and_format_fields env s st h1
      have hb := ih sa (ra :: acc) (tr ++ tra) h
      exact ⟨hb.1.trans ha.1, hb.2.1.trans ha.2.1, hb.2.2.trans ha.2.2⟩
    | error e =>
      rw [h1] at h
      simp at h

/-! ## Loop-level fixtures -/

/-- Error message of the demo cursor. -/
def demoErr : Str := lit "no such table: boom"

/-- The one row the demo cursor returns for the synthetic error SELECT. -/
def demoRow : Row :=
  [(lit "error", lit "Error: no such table: boom. Try a different way.")]

/-- The token list for `SELECT boom`. -/
def stmtBoom : Statement :=
  [⟨.DML, lit "SELECT"⟩, ⟨.Whitespace, lit " "⟩, ⟨.Name, lit "boom"⟩]

/-- Loop-level demo environment: every query raises `no such table: boom`
except the synthetic error SELECT, which returns one row; the validator
accepts everything; only the text `SELECT boom` parses into a statement;
tabulate renders a fixed dash-free cell. -/
def envDemo : Env :=
  { exec := fun q =>
      if q == errorQuery demoErr then .ok [demoRow] else .error demoErr,
    isValid := fun _ => true,
    firstError := fun _ => lit "invalid",
    sqlParse := fun q => if q == lit "SELECT boom" then [stmtBoom] else [],
    tabulate := fun _ _ => lit "errcell" }

/-- As `envDemo`, but the validator rejects everything (like sqlvalidator
on non-SQL text). -/
def envDemoReject : Env := { envDemo with isValid := fun _ => false }

/-- The starting tail record of the demo transcript. -/
def e1Demo : Sample :=
  Sample.make false (some (lit "list tables")) (some (lit "SELECT ok"))

/-- A one-record starting state. -/
def stateOne : WTFState :=
  { examples := [e1Demo], model := lit "code-davinci-002" }

/-- Raw model completion claiming a final answer with a failing query. -/
def rawBoom : Str := lit "True\nREASON: why\n\nSTART-QUERY\nSELECT boom"

/-- Raw model completion for the following turn. -/
def rawSecond : Str := lit "False\nREASON: next\n\nSTART-QUERY\nSELECT ok"

/-- A final flag makes `is_empty` false. -/
theorem is_empty_false_of_final {s : Sample} (h : s.final = true) :
    s.is_empty = false := by
  unfold Sample.is_empty
  rw [h]
  simp

/-- Unfolding `nextStep` once the tail and its populate result are known. -/
theorem nextStep_eq (env : Env) (st : WTFState) (raw : Str)
    (tail tail2 : Sample) (tr : List Str)
    (htail : st.examples.getLast? = some tail)
    (hpop : Sample.populate env tail = .ok (tail2, tr)) :
    SQLWTFer.nextStep env st raw =
      SQLWTFer.appendStep env
        (SQLWTFer.failover { st with examples := replaceLast st.examples tail2 })
        (Sample.parse env (lit "FINAL: " ++ raw ++ lit "\nEND-QUERY")) := by
  unfold SQLWTFer.nextStep
  rw [htail]
  simp only [hpop]

/-! ## C5 -/

/-- C5: each iteration's outcome is decided by the freshly parsed record:
final and error-free after execution raises the stop-of-sequence
condition; final but errored is demoted to `final := false`, yielded, and
sits at the Transcript tail; non-final is yielded and the loop continues. -/
theorem C5_step_outcomes (env : Env) (st : WTFState) (raw : Str)
    (tail tail2 s2 : Sample) (tr tr2 : List Str)
    (htail : st.examples.getLast? = some tail)
    (hpop : Sample.populate env tail = .ok (tail2, tr))
    (hpop2 : Sample.populate env
        (Sample.parse env (lit "FINAL: " ++ raw ++ lit "\nEND-QUERY")) = .ok (s2, tr2)) :
    ((Sample.parse env (lit "FINAL: " ++ raw ++ lit "\nEND-QUERY")).final = true →
      s2.errored = false →
      ∃ st', SQLWTFer.nextStep env st raw = .ok (st', .stop)) ∧
    ((Sample.parse env (lit "FINAL: " ++ raw ++ lit "\nEND-QUERY")).final = true →
      s2.errored = true →
      ∃ st', SQLWTFer.nextStep env st raw
          = .ok (st', .yield { s2 with final := false }) ∧
        st'.examples.getLast? = some { s2 with final := false }) ∧
    ((Sample.parse env (lit "FINAL: " ++ raw ++ lit "\nEND-QUERY")).final = false →
      ∃ st', SQLWTFer.nextStep env st raw
          = .ok (st', .yield (Sample.parse env (lit "FINAL: " ++ raw ++ lit "\nEND-QUERY")))) := by
  rw [nextStep_eq env st raw tail tail2 tr htail hpop]
  refine ⟨?_, ?_, ?_⟩
  · intro hf herr
    unfold SQLWTFer.appendStep SQLWTFer.finishStep
    simp only [is_empty_false_of_final hf, hf, hpop2, herr]
    exact ⟨_, rfl⟩
  · intro hf herr
    unfold SQLWTFer.appendStep SQLWTFer.finishStep
    simp only [is_empty_false_of_final hf, hf, hpop2, herr]
    refine ⟨_, rfl, ?_⟩
    unfold replaceLast
    simp
  · intro hf
    unfold SQLWTFer.appendStep SQLWTFer.finishStep
    simp only [hf]
    exact ⟨_, rfl⟩

/-- `e1Demo` after its populate (no statements parsed; empty response). -/
def e1DemoPop : Sample :=
  { final := false, reason := some (lit "list tables"),
    query := some (lit "SELECT ok"), original_query := some (lit "SELECT ok"),
    errored := false, response := some [], writes := 1 }

/-- The final-claiming sample of `rawBoom` after its populate: query
rewritten to the limit-relaxed text, errored, synthetic error row
rendered. -/
def sBoomPop : Sample :=
  { final := true, reason := some (lit "why"),
    query := some (lit "SELECT  LIMIT 25 boom"),
    original_query := some (lit "SELECT boom"),
    errored := true, response := some (lit "errcell"), writes := 1 }

/-- The cursor-execute trace of that populate. -/
def boomTrace : List Str := [lit "SELECT  LIMIT 25 boom", errorQuery demoErr]

/-- C5 witness: on the demo run the final-but-failing turn is demoted to
`final := false`, yielded, and left at the Transcript tail. -/
theorem C5_witness :
    ∃ st', SQLWTFer.nextStep envDemo stateOne rawBoom
        = .ok (st', .yield { sBoomPop with final := false }) ∧
      st'.examples.getLast? = some { sBoomPop with final := false } :=
  (C5_step_outcomes envDemo stateOne rawBoom e1Demo e1DemoPop sBoomPop [] boomTrace
    (by decide) (by decide) (by decide)).2.1 (by decide) (by decide)

/-! ## C7 -/

/-- The record `parse` produces from a blank completion: empty strings,
not `None` — so `is_empty` (which compares with `None`) cannot fire. -/
def emptyRecord : Sample := Sample.make false (some []) (some [])

/-- C7 (code bug): a blank model completion parses to a record with empty
query, empty reason and `final = false`, yet `is_empty` is false (it
checks `is None`, and `parse` always returns strings), so the record IS
appended to the Transcript — the claimed invariant fails. -/
theorem C7_empty_record_appended :
    Sample.parse envDemoReject (lit "FINAL: " ++ [] ++ lit "\nEND-QUERY") = emptyRecord ∧
    emptyRecord.is_empty = false ∧
    SQLWTFer.nextStep envDemoReject stateOne []
      = .ok ({ examples := [e1DemoPop, emptyRecord],
               model := lit "code-davinci-002" }, .yield emptyRecord) ∧
    ({ examples := [e1DemoPop, emptyRecord],
       model := lit "code-davinci-002" } : WTFState).examples.getLast?
      = some emptyRecord := by
  refine ⟨by decide, by decide, by decide, by decide⟩

/-! ## C9 -/

/-- The demoted record after the second iteration populates it again:
its response has been assigned twice. -/
def demotedBoom2 : Sample :=
  { sBoomPop with final := false, response := some [], writes := 2 }

/-- The sample parsed from `rawSecond`. -/
def nextSample : Sample :=
  Sample.make false (some (lit "next")) (some (lit "SELECT ok"))

/-- C9 (counterexample): two consecutive loop iterations on the demo run.
The final-but-failing record is populated at acceptance (writes = 1),
demoted, and — still being the Transcript tail — populated AGAIN before
the next prompt (writes = 2, response reassigned): `response` is not
populated at most once over the record's lifetime. -/
theorem C9_counterexample :
    SQLWTFer.nextStep envDemo stateOne rawBoom
      = .ok ({ examples := [e1DemoPop, { sBoomPop with final := false }],
               model := lit "code-davinci-002" },
             .yield { sBoomPop with final := false }) ∧
    SQLWTFer.nextStep envDemo
        { examples := [e1DemoPop, { sBoomPop with final := false }],
          model := lit "code-davinci-002" } rawSecond
      = .ok ({ examples := [e1DemoPop, demotedBoom2, nextSample],
               model := lit "code-davinci-002" }, .yield nextSample) ∧
    ({ sBoomPop with final := false } : Sample).writes = 1 ∧
    demotedBoom2.writes = 2 := by
  refine ⟨by decide, by decide, by decide, by decide⟩

/-- C9 (amended): `populate` assigns `response` exactly once per call when
the query is truthy, and leaves the record untouched otherwise.  The loop
populates the Transcript tail before every prompt and a final sample once
more at acceptance, so a record that stays at the tail (a demoted final
record) or is re-executed by `execute()` accumulates several assignments
over its lifetime. -/
theorem C9_amended_populate_writes (env : Env) (s : Sample)
    {s2 : Sample} {tr : List Str}
    (h : Sample.populate env s = .ok (s2, tr)) :
    (truthy s.query = true →
      s2.writes = s.writes + 1 ∧ s2.response.isSome = true) ∧
    (truthy s.query = false → s2 = s) := by
  unfold Sample.populate at h
  split at h
  · rename_i hcond
    have hq : truthy s.query = false := by
      revert hcond
      cases truthy s.query <;> simp
    simp only [Except.ok.injEq, Prod.mk.injEq] at h
    exact ⟨fun hq' => absurd hq' (by simp [hq]), fun _ => h.1.symm⟩
  · rename_i hcond
    have hq : truthy s.query = true := by
      revert hcond
      cases truthy s.query <;> simp
    split at h
    · simp at h
    · rename_i s3 results tra heq
      simp only [Except.ok.injEq, Prod.mk.injEq] at h
      have hw := (populateAux_fields env _ s [] [] heq).1
      refine ⟨fun _ => ?_, fun hq' => absurd hq (by simp [hq'])⟩
      constructor
      · rw [← h.1]
        simp [hw]
      · rw [← h.1]
        simp

/-- C9 witness for the amended statement: the demo tail record's populate
increments `writes` exactly once. -/
theorem C9_amended_witness :
    truthy e1Demo.query = true ∧ e1DemoPop.writes = e1Demo.writes + 1 :=
  ⟨by decide,
   (((@C9_amended_populate_writes envDemo e1Demo e1DemoPop []) (by decide)).1 (by decide)).1⟩

/-! ## C10 -/

/-- C10: (a) a successfully executed statement with zero rows makes the
tab formatter return `None`; (b) a populate all of whose per-statement
results are `None` sets `response` to the empty string; (c) `execute()`
then answers with the most recent record whose response is truthy, not
with the freshly populated result record. -/
theorem C10_empty_result_fallback :
    (∀ (env : Env) (k : Bool), tabWrap env [] k = .ok none) ∧
    (∀ (env : Env) (s s2 : Sample) (results : List (Option Str)) (tr : List Str),
      truthy s.query = true →
      populateAux env s
        (env.sqlParse (if s.final then s.original_query.getD []
                       else s.query.getD [])) [] [] = .ok (s2, results, tr) →
      (∀ r ∈ results, r = none) →
      Sample.populate env s
        = .ok ({ s2 with response := some [], writes := s2.writes + 1 }, tr)) ∧
    (∀ (env : Env) (st : WTFState) (i : Nat) (r r2 : Sample) (tr : List Str)
        (sp : Sample),
      SQLWTFer.result st = some (i, r) →
      Sample.populate env r = .ok (r2, tr) →
      (st.examples.set i r2).reverse.find? (fun s => truthy s.response) = some sp →
      SQLWTFer.execute env st
        = .ok (sp.response.getD [], { st with examples := st.examples.set i r2 })) := by
  refine ⟨fun env k => rfl, ?_, ?_⟩
  · intro env s s2 results tr hq haux hall
    unfold Sample.populate
    simp only [hq, Bool.not_true, Bool.false_eq_true, if_false, haux]
    have hfm : results.filterMap id = [] := by
      apply List.filterMap_eq_nil_iff.mpr
      intro a ha
      rw [hall a ha]
      rfl
    rw [hfm]
    rfl
  · intro env st i r r2 tr sp hres hpop hfind
    unfold SQLWTFer.execute
    simp only [hres, hpop, hfind]

/-- The earlier record carrying the last non-empty response. -/
def prevRec10 : Sample :=
  { Sample.make false (some (lit "tables")) (some (lit "q0")) with
      response := some (lit "prev-table") }

/-- The accepted final record whose query returns zero rows. -/
def rFinal10 : Sample :=
  Sample.make true (some (lit "answer")) (some (lit "SELECT none"))

/-- `rFinal10` as threaded through `populateAux` (query rewritten by the
limit relaxation), before the response write. -/
def rMid10 : Sample :=
  { rFinal10 with query := some (lit "SELECT  LIMIT 25 none") }

/-- `rFinal10` fully populated: empty response. -/
def rPop10 : Sample :=
  { rMid10 with response := some [], writes := rMid10.writes + 1 }

/-- Cursor always returns zero rows; only `SELECT none` parses. -/
def env10 : Env :=
  { exec := fun _ => .ok [], isValid := fun _ => true,
    firstError := fun _ => [],
    sqlParse := fun q =>
      if q == lit "SELECT none" then
        [[⟨.DML, lit "SELECT"⟩, ⟨.Whitespace, lit " "⟩, ⟨.Name, lit "none"⟩]]
      else [],
    tabulate := fun _ _ => lit "T" }

/-- The two-record transcript for the C10 witness. -/
def st10 : WTFState :=
  { examples := [prevRec10, rFinal10], model := lit "code-davinci-002" }

/-- C10 witness: the zero-row final record gets response `""` and
`execute()` falls back to the earlier record's response. -/
theorem C10_witness :
    tabWrap env10 [] false = .ok none ∧
    Sample.populate env10 rFinal10
      = .ok ({ rMid10 with response := some [], writes := rMid10.writes + 1 },
             [lit "SELECT  LIMIT 25 none"]) ∧
    SQLWTFer.execute env10 st10
      = .ok (prevRec10.response.getD [],
             { st10 with examples := st10.examples.set 1 rPop10 }) :=
  ⟨C10_empty_result_fallback.1 env10 false,
   C10_empty_result_fallback.2.1 env10 rFinal10 rMid10 [none]
     [lit "SELECT  LIMIT 25 none"] (by decide) (by decide) (by decide),
   C10_empty_result_fallback.2.2 env10 st10 1 rFinal10 rPop10
     [lit "SELECT  LIMIT 25 none"] prevRec10 (by decide) (by decide) (by decide)⟩

/-- A two-errored-record state for the C6 witness. -/
def stTwoErrors : WTFState :=
  { examples :=
      [sampleBlank,
       { sampleBlank with errored := true },
       { sampleBlank with errored := true }],
    model := lit "code-davinci-002" }

/-- C6 witness: with two errored records, both are popped and the model
rotates to `text-davinci-003`. -/
theorem C6_witness :
    stTwoErrors.model ∈ MODELS ∧ 1 < SQLWTFer.errors stTwoErrors ∧
    (SQLWTFer.failover stTwoErrors).examples = [sampleBlank] ∧
    (SQLWTFer.failover stTwoErrors).model = lit "text-davinci-003" := by
  have h := C6_failover stTwoErrors (by decide) (by decide)
  refine ⟨by decide, by decide, ?_, by decide⟩
  rw [h.1]
  decide

/-! ## C8 -/

/-- A record with an empty reason and a one-line query. -/
def recEmptyReason : Sample := Sample.make false (some []) (some (lit "SELECT 1;"))

/-- C8 (counterexample): formatting a record with an empty reason yields a
bare `REASON:` line; re-parsing it, the regex `REASON:\s*(.*)` skips the
whitespace run ACROSS the two newlines and captures the next line — the
literal text `START-QUERY` — so `parse(format(record))` does not
reconstruct `reason`. -/
theorem C8_counterexample :
    Sample.format recEmptyReason
      = lit "FINAL: False\nREASON:\n\nSTART-QUERY\nSELECT 1;\nEND-QUERY\n\nRESPONSE:\nNone" ∧
    (Sample.parse envAccept (Sample.format recEmptyReason)).reason
      = some (lit "START-QUERY") ∧
    (Sample.parse envAccept (Sample.format recEmptyReason)).reason
      ≠ recEmptyReason.reason := by
  refine ⟨by decide, by decide, by decide⟩

/-- The dedented text `format` produces on a well-scaffolded record. -/
def canonicalScaffold (b : Bool) (re q : Str) : Str :=
  lit "FINAL: " ++ pyShowBool b ++ lit "\nREASON: " ++ re ++
  lit "\n\nSTART-QUERY\n" ++ q ++ lit "\nEND-QUERY\n\nRESPONSE:\nNone"

/-- `stripCR` is the identity on carriage-return-free text. -/
theorem stripCR_eq_self : ∀ (s : Str), (∀ c ∈ s, ¬ c = '\r') → stripCR s = s := by
  intro s
  induction s with
  | nil => intro _; rfl
  | cons c t ih =>
    intro h
    have hc : ¬ c = '\r' := h c (by simp)
    have ht : ∀ c ∈ t, ¬ c = '\r' := fun x hx => h x (by simp [hx])
    simp [stripCR, hc]
    exact ih ht

/-- `splitlinesAux` accumulates break-free characters into the current
line. -/
theorem slAux_bf : ∀ (a : Str), (∀ c ∈ a, isLineBreak c = false) →
    ∀ (cur s : Str),
    splitlinesAux cur (a ++ s) = splitlinesAux (a.reverse ++ cur) s := by
  intro a
  induction a with
  | nil => intro _ cur s; simp
  | cons c a ih =>
    intro ha cur s
    have hc : isLineBreak c = false := ha c (by simp)
    have step : splitlinesAux cur (c :: (a ++ s))
        = splitlinesAux (c :: cur) (a ++ s) := by
      simp [splitlinesAux, hc]
    rw [List.cons_append, step, ih (fun x hx => ha x (by simp [hx])) (c :: cur) s]
    simp

/-- `splitlinesAux` at a newline: emit the current line; a trailing
newline emits no further empty line. -/
theorem slAux_nl (cur s : Str) :
    splitlinesAux cur ('\n' :: s)
      = cur.reverse :: (if s.isEmpty then [] else splitlinesAux [] s) := by
  simp [splitlinesAux, isLineBreak]

/-- `splitlinesAux` on a final break-free segment. -/
theorem slAux_term : ∀ (a : Str), (∀ c ∈ a, isLineBreak c = false) →
    ∀ cur, splitlinesAux cur a = [cur.reverse ++ a] := by
  intro a ha cur
  have h := slAux_bf a ha cur []
  rw [List.append_nil] at h
  rw [h]
  show [(a.reverse ++ cur).reverse] = _
  simp

/-- `splitlinesAux` over newline-joined break-free lines followed by a
newline and a nonempty rest: the joined lines come out as lines (the first
merged with the accumulator), then the rest is processed afresh. -/
theorem slAux_join : ∀ (ls : List Str) (l : Str),
    (∀ x ∈ l :: ls, ∀ c ∈ x, isLineBreak c = false) →
    ∀ (cur rest : Str), rest ≠ [] →
    splitlinesAux cur (pyJoin ['\n'] (l :: ls) ++ '\n' :: rest)
      = ((cur.reverse ++ l) :: ls) ++ splitlinesAux [] rest := by
  intro ls
  induction ls with
  | nil =>
    intro l h cur rest hr
    rw [show pyJoin ['\n'] [l] = l from rfl]
    rw [slAux_bf l (h l (by simp)) cur ('\n' :: rest), slAux_nl]
    rw [if_neg (by simpa using hr)]
    simp
  | cons l2 ls ih =>
    intro l h cur rest hr
    rw [show pyJoin ['\n'] (l :: l2 :: ls)
          = l ++ '\n' :: pyJoin ['\n'] (l2 :: ls) by simp [pyJoin]]
    rw [List.append_assoc, List.cons_append]
    rw [slAux_bf l (h l (by simp)) cur _, slAux_nl]
    rw [if_neg (by simp)]
    rw [ih l2 (fun x hx => h x (by simp at hx ⊢; tauto)) [] rest hr]
    simp

/-- `dropWhile` eats a fully-satisfying chunk. -/
theorem dropWhile_all {p : Char → Bool} : ∀ (sp : Str), (∀ c ∈ sp, p c = true) →
    ∀ (y : Str), (sp ++ y).dropWhile p = y.dropWhile p := by
  intro sp
  induction sp with
  | nil => intro _ y; rfl
  | cons c t ih =>
    intro h y
    have hc : p c = true := h c (by simp)
    rw [List.cons_append, List.dropWhile_cons, if_pos hc]
    exact ih (fun x hx => h x (by simp [hx])) y

/-- `dropWhile` keeps a fixpoint chunk with whatever follows. -/
theorem dropWhile_stop {p : Char → Bool} (y z : Str)
    (hy : y.dropWhile p = y) (hne : y ≠ []) :
    (y ++ z).dropWhile p = y ++ z := by
  cases y with
  | nil => exact absurd rfl hne
  | cons c t =>
    have hc : p c = false := by
      cases hpc : p c with
      | false => rfl
      | true =>
        rw [List.dropWhile_cons, if_pos hpc] at hy
        have h1 : (List.dropWhile p t).length = t.length + 1 := by
          rw [hy]
          rfl
        have h2 : (List.dropWhile p t).length ≤ t.length :=
          (List.dropWhile_sublist p).length_le
        omega
    rw [List.cons_append, List.dropWhile_cons, if_neg (by simp [hc])]

/-- `pyStrip` fixes a string with whitespace-free ends. -/
theorem pyStrip_fix {s : Str} (h1 : s.dropWhile isPySpace = s)
    (h2 : s.reverse.dropWhile isPySpace = s.reverse) : pyStrip s = s := by
  unfold pyStrip
  rw [h1, h2, List.reverse_reverse]

/-- `pyStrip` removes a leading all-whitespace chunk and fixes the rest. -/
theorem pyStrip_indent {sp X : Str} (hsp : ∀ c ∈ sp, isPySpace c = true)
    (h1 : X.dropWhile isPySpace = X)
    (h2 : X.reverse.dropWhile isPySpace = X.reverse) :
    pyStrip (sp ++ X) = X := by
  unfold pyStrip
  rw [dropWhile_all sp hsp X, h1, h2, List.reverse_reverse]

/-- `takeToNl` stops exactly at the first newline. -/
theorem takeToNl_append : ∀ (a : Str), (∀ c ∈ a, ¬ c = '\n') →
    ∀ (z : Str), takeToNl (a ++ '\n' :: z) = a := by
  intro a
  induction a with
  | nil =>
    intro _ z
    simp [takeToNl]
  | cons c t ih =>
    intro h z
    have hc : ¬ c = '\n' := h c (by simp)
    rw [List.cons_append]
    unfold takeToNl at ih ⊢
    rw [List.takeWhile_cons, if_pos (by simp [hc])]
    rw [ih (fun x hx => h x (by simp [hx])) z]

/-- One full line step of `splitlinesAux` starting fresh. -/
theorem slAux_line (seg rest : Str) (hseg : ∀ c ∈ seg, isLineBreak c = false)
    (hr : rest ≠ []) :
    splitlinesAux [] (seg ++ '\n' :: rest) = seg :: splitlinesAux [] rest := by
  rw [slAux_bf seg hseg [] ('\n' :: rest), slAux_nl, if_neg (by simpa using hr)]
  simp

/-- `pyJoin` on a cons with a nonempty tail. -/
theorem pyJoin_cons (sep : Str) (x : Str) (rest : List Str) (h : rest ≠ []) :
    pyJoin sep (x :: rest) = x ++ sep ++ pyJoin sep rest := by
  cases rest with
  | nil => exact absurd rfl h
  | cons y t => simp [pyJoin]

/-- `pyJoin` distributes over an append of nonempty line lists. -/
theorem pyJoin_append (sep : Str) : ∀ (xs ys : List Str), xs ≠ [] → ys ≠ [] →
    pyJoin sep (xs ++ ys) = pyJoin sep xs ++ sep ++ pyJoin sep ys := by
  intro xs
  induction xs with
  | nil => intro ys h _; exact absurd rfl h
  | cons x t ih =>
    intro ys _ hy
    cases t with
    | nil =>
      rw [show ([x] : List Str) ++ ys = x :: ys from rfl,
          pyJoin_cons sep x ys hy]
      rfl
    | cons x2 t2 =>
      rw [show (x :: x2 :: t2) ++ ys = x :: ((x2 :: t2) ++ ys) from rfl]
      rw [pyJoin_cons sep x ((x2 :: t2) ++ ys) (by simp)]
      rw [ih ys (by simp) hy]
      rw [pyJoin_cons sep x (x2 :: t2) (by simp)]
      simp [List.append_assoc]

/-- Prepending to the first joined line. -/
theorem pyJoin_head (sep a : Str) (x : Str) (xs : List Str) :
    a ++ pyJoin sep (x :: xs) = pyJoin sep ((a ++ x) :: xs) := by
  cases xs with
  | nil => rfl
  | cons y t =>
    rw [pyJoin_cons sep x (y :: t) (by simp), pyJoin_cons sep (a ++ x) (y :: t) (by simp)]
    simp [List.append_assoc]

/-- Membership in a newline-join: a newline or a character of some line. -/
theorem pyJoin_mem : ∀ (l : List Str) (c : Char), c ∈ pyJoin ['\n'] l →
    c = '\n' ∨ ∃ x ∈ l, c ∈ x := by
  intro l
  induction l with
  | nil => intro c hc; simp [pyJoin] at hc
  | cons x t ih =>
    intro c hc
    cases t with
    | nil =>
      right
      exact ⟨x, by simp, by simpa [pyJoin] using hc⟩
    | cons y t2 =>
      rw [pyJoin_cons _ x (y :: t2) (by simp)] at hc
      rcases List.mem_append.mp hc with h1 | h2
      · rcases List.mem_append.mp h1 with ha | hb
        · exact Or.inr ⟨x, by simp, ha⟩
        · left
          simpa using hb
      · rcases ih c h2 with h | ⟨z, hz, hcz⟩
        · exact Or.inl h
        · exact Or.inr ⟨z, by simp [hz], hcz⟩

/-- A predicate holding on two strings holds on their concatenation. -/
theorem all_append {P : Char → Prop} {a b : Str}
    (ha : ∀ c ∈ a, P c) (hb : ∀ c ∈ b, P c) : ∀ c ∈ a ++ b, P c := by
  intro c hc
  rcases List.mem_append.mp hc with h | h
  · exact ha c h
  · exact hb c h

/-- A predicate holding on the head and the tail holds on the cons. -/
theorem all_cons {P : Char → Prop} {c0 : Char} {b : Str}
    (hc : P c0) (hb : ∀ c ∈ b, P c) : ∀ c ∈ c0 :: b, P c := by
  intro c hcc
  rcases List.mem_cons.mp hcc with h | h
  · exact h ▸ hc
  · exact hb c h

/-- Break-free strings contain no carriage return. -/
theorem noCR_of_bf {s : Str} (h : ∀ c ∈ s, isLineBreak c = false) :
    ∀ c ∈ s, ¬ c = '\r' := by
  intro c hc he
  subst he
  have := h _ hc
  simp [isLineBreak] at this

/-- The 12-space indentation of the format template. -/
def indent12 : Str := lit "            "

/-- The raw f-string `Sample.format` builds, before `dedent`. -/
def scaffoldTemplate (bs re q : Str) : Str :=
  lit "\n            FINAL: " ++ bs ++ lit "\n            REASON: " ++ re ++
  lit "\n\n            START-QUERY\n            " ++ q ++
  lit "\n            END-QUERY\n\n            RESPONSE:\n            " ++
  lit "None" ++ lit "\n            "

/-- The physical lines of the template, for a break-free reason and
break-free query lines. -/
def scaffoldLines (bs re : Str) (l0 : Str) (ls : List Str) : List Str :=
  [[], indent12 ++ lit "FINAL: " ++ bs, indent12 ++ lit "REASON: " ++ re, [],
   indent12 ++ lit "START-QUERY"] ++ ((indent12 ++ l0) :: ls) ++
  [indent12 ++ lit "END-QUERY", [], indent12 ++ lit "RESPONSE:",
   indent12 ++ lit "None", indent12]

/-- One blank-line step of `splitlinesAux`. -/
theorem slAux_blank (rest : Str) (hr : rest ≠ []) :
    splitlinesAux [] ('\n' :: rest) = [] :: splitlinesAux [] rest := by
  rw [slAux_nl, if_neg (by simpa using hr)]
  rfl

/-- The template splits into `scaffoldLines`. -/
theorem splitlines_scaffold (bs re l0 : Str) (ls : List Str)
    (hbs : ∀ c ∈ bs, isLineBreak c = false)
    (hre : ∀ c ∈ re, isLineBreak c = false)
    (hql : ∀ x ∈ l0 :: ls, ∀ c ∈ x, isLineBreak c = false) :
    pySplitlines (scaffoldTemplate bs re (pyJoin ['\n'] (l0 :: ls)))
      = scaffoldLines bs re l0 ls := by
  have hI : ∀ c ∈ indent12, isLineBreak c = false := by decide
  have hshape : scaffoldTemplate bs re (pyJoin ['\n'] (l0 :: ls))
      = '\n' :: ((indent12 ++ lit "FINAL: " ++ bs) ++ '\n' ::
        ((indent12 ++ lit "REASON: " ++ re) ++ '\n' :: '\n' ::
        ((indent12 ++ lit "START-QUERY") ++ '\n' ::
        ((indent12 ++ pyJoin ['\n'] (l0 :: ls)) ++ '\n' ::
        ((indent12 ++ lit "END-QUERY") ++ '\n' :: '\n' ::
        ((indent12 ++ lit "RESPONSE:") ++ '\n' ::
        ((indent12 ++ lit "None") ++ '\n' :: indent12))))))) := by
    simp only [scaffoldTemplate, indent12, lit, List.append_assoc]
    rfl
  rw [hshape, pyJoin_head ['\n'] indent12 l0 ls]
  have hlineQ : ∀ x ∈ (indent12 ++ l0) :: ls, ∀ c ∈ x, isLineBreak c = false := by
    intro x hx
    rcases List.mem_cons.mp hx with h | h
    · exact h ▸ all_append hI (hql l0 (by simp))
    · exact hql x (by simp [h])
  have hnoCR : ∀ c ∈ ('\n' :: ((indent12 ++ lit "FINAL: " ++ bs) ++ '\n' ::
        ((indent12 ++ lit "REASON: " ++ re) ++ '\n' :: '\n' ::
        ((indent12 ++ lit "START-QUERY") ++ '\n' ::
        (pyJoin ['\n'] ((indent12 ++ l0) :: ls) ++ '\n' ::
        ((indent12 ++ lit "END-QUERY") ++ '\n' :: '\n' ::
        ((indent12 ++ lit "RESPONSE:") ++ '\n' ::
        ((indent12 ++ lit "None") ++ '\n' :: indent12)))))))), ¬ c = '\r' := by
    refine all_cons (by decide) ?_
    refine all_append (all_append (by decide) (noCR_of_bf hbs)) ?_
    refine all_cons (by decide) ?_
    refine all_append (all_append (by decide) (noCR_of_bf hre)) ?_
    refine all_cons (by decide) ?_
    refine all_cons (by decide) ?_
    refine all_append (by decide) ?_
    refine all_cons (by decide) ?_
    refine all_append ?_ ?_
    · intro c hc
      rcases pyJoin_mem _ c hc with h | ⟨x, hx, hcx⟩
      · subst h; decide
      · exact noCR_of_bf (hlineQ x hx) c hcx
    refine all_cons (by decide) ?_
    refine all_append (by decide) ?_
    refine all_cons (by decide) ?_
    refine all_cons (by decide) ?_
    refine all_append (by decide) ?_
    refine all_cons (by decide) ?_
    refine all_append (by decide) ?_
    exact all_cons (by decide) (by decide)
  rw [show pySplitlines ('\n' :: ((indent12 ++ lit "FINAL: " ++ bs) ++ '\n' ::
        ((indent12 ++ lit "REASON: " ++ re) ++ '\n' :: '\n' ::
        ((indent12 ++ lit "START-QUERY") ++ '\n' ::
        (pyJoin ['\n'] ((indent12 ++ l0) :: ls) ++ '\n' ::
        ((indent12 ++ lit "END-QUERY") ++ '\n' :: '\n' ::
        ((indent12 ++ lit "RESPONSE:") ++ '\n' ::
        ((indent12 ++ lit "None") ++ '\n' :: indent12))))))))
      = splitlinesAux [] (stripCR ('\n' :: ((indent12 ++ lit "FINAL: " ++ bs) ++ '\n' ::
        ((indent12 ++ lit "REASON: " ++ re) ++ '\n' :: '\n' ::
        ((indent12 ++ lit "START-QUERY") ++ '\n' ::
        (pyJoin ['\n'] ((indent12 ++ l0) :: ls) ++ '\n' ::
        ((indent12 ++ lit "END-QUERY") ++ '\n' :: '\n' ::
        ((indent12 ++ lit "RESPONSE:") ++ '\n' ::
        ((indent12 ++ lit "None") ++ '\n' :: indent12)))))))))
      from rfl]
  rw [stripCR_eq_self _ hnoCR]
  rw [slAux_blank _ (by simp)]
  rw [slAux_line _ _ (all_append (all_append hI (by decide)) hbs) (by simp)]
  rw [slAux_line _ _ (all_append (all_append hI (by decide)) hre) (by simp)]
  rw [slAux_blank _ (by simp)]
  rw [slAux_line _ _ (all_append hI (by decide)) (by simp)]
  rw [slAux_join ls (indent12 ++ l0) hlineQ [] _ (by simp)]
  rw [slAux_line _ _ (all_append hI (by decide)) (by simp)]
  rw [slAux_blank _ (by simp)]
  rw [slAux_line _ _ (all_append hI (by decide)) (by simp)]
  rw [slAux_line _ _ (all_append hI (by decide)) (by decide)]
  rw [slAux_term indent12 hI []]
  simp [scaffoldLines]

/-- The dedented core text of a scaffolded record. -/
def scaffoldCore (bs re q : Str) : Str :=
  lit "FINAL: " ++ bs ++ lit "\nREASON: " ++ re ++ lit "\n\nSTART-QUERY\n" ++
  q ++ lit "\nEND-QUERY\n\nRESPONSE:\nNone"

/-- Per-line stripping of the template lines. -/
theorem stripmap_scaffold (bs re l0 : Str) (ls : List Str)
    (hbsne : bs ≠ [])
    (hbsR : bs.reverse.dropWhile isPySpace = bs.reverse)
    (hreNe : re ≠ [])
    (hreR : re.reverse.dropWhile isPySpace = re.reverse)
    (hl0L : l0.dropWhile isPySpace = l0)
    (hl0R : l0.reverse.dropWhile isPySpace = l0.reverse)
    (hlsL : ∀ x ∈ ls, x.dropWhile isPySpace = x)
    (hlsR : ∀ x ∈ ls, x.reverse.dropWhile isPySpace = x.reverse) :
    (scaffoldLines bs re l0 ls).map pyStrip
      = [[], lit "FINAL: " ++ bs, lit "REASON: " ++ re, [], lit "START-QUERY"]
        ++ (l0 :: ls)
        ++ [lit "END-QUERY", [], lit "RESPONSE:", lit "None", []] := by
  have s1 : pyStrip (indent12 ++ lit "FINAL: " ++ bs) = lit "FINAL: " ++ bs := by
    rw [List.append_assoc]
    refine pyStrip_indent (by decide) (dropWhile_stop _ _ (by decide) (by decide)) ?_
    rw [List.reverse_append]
    exact dropWhile_stop _ _ hbsR (by simpa using hbsne)
  have s2 : pyStrip (indent12 ++ lit "REASON: " ++ re) = lit "REASON: " ++ re := by
    rw [List.append_assoc]
    refine pyStrip_indent (by decide) (dropWhile_stop _ _ (by decide) (by decide)) ?_
    rw [List.reverse_append]
    exact dropWhile_stop _ _ hreR (by simpa using hreNe)
  have s3 : pyStrip (indent12 ++ l0) = l0 := pyStrip_indent (by decide) hl0L hl0R
  have s4 : ls.map pyStrip = ls := by
    have h := List.map_congr_left
      (fun x hx => pyStrip_fix (hlsL x hx) (hlsR x hx))
    rw [h]
    simp
  unfold scaffoldLines
  rw [List.map_append, List.map_append]
  simp only [List.map_cons, List.map_nil, s1, s2, s3, s4]
  rw [show pyStrip ([] : Str) = [] from rfl]
  rw [show pyStrip indent12 = [] by decide]
  rw [show pyStrip (indent12 ++ lit "START-QUERY") = lit "START-QUERY" by decide]
  rw [show pyStrip (indent12 ++ lit "END-QUERY") = lit "END-QUERY" by decide]
  rw [show pyStrip (indent12 ++ lit "RESPONSE:") = lit "RESPONSE:" by decide]
  rw [show pyStrip (indent12 ++ lit "None") = lit "None" by decide]

/-- Joining the stripped lines yields the core wrapped in the outer
newlines the final strip removes. -/
theorem join_scaffold (bs re : Str) (l0 : Str) (ls : List Str) :
    pyJoin ['\n']
      ([[], lit "FINAL: " ++ bs, lit "REASON: " ++ re, [], lit "START-QUERY"]
        ++ (l0 :: ls)
        ++ [lit "END-QUERY", [], lit "RESPONSE:", lit "None", []])
      = '\n' :: (scaffoldCore bs re (pyJoin ['\n'] (l0 :: ls)) ++ ['\n']) := by
  rw [List.append_assoc]
  rw [pyJoin_append ['\n'] _ _ (by simp) (by simp)]
  rw [pyJoin_append ['\n'] (l0 :: ls) _ (by simp) (by simp)]
  rw [show pyJoin ['\n']
       ([[], lit "FINAL: " ++ bs, lit "REASON: " ++ re, [], lit "START-QUERY"])
      = [] ++ ['\n'] ++ (lit "FINAL: " ++ bs ++ (['\n'] ++ (lit "REASON: " ++ re
        ++ (['\n'] ++ ([] ++ (['\n'] ++ lit "START-QUERY")))))) by
    simp [pyJoin, List.append_assoc]]
  rw [show pyJoin ['\n'] [lit "END-QUERY", [], lit "RESPONSE:", lit "None", []]
      = lit "END-QUERY\n\nRESPONSE:\nNone" ++ ['\n'] by decide]
  unfold scaffoldCore
  rw [show (lit "\nREASON: " : Str) = '\n' :: lit "REASON: " from rfl]
  rw [show (lit "\n\nSTART-QUERY\n" : Str)
      = '\n' :: '\n' :: (lit "START-QUERY" ++ ['\n']) from rfl]
  rw [show (lit "\nEND-QUERY\n\nRESPONSE:\nNone" : Str)
      = '\n' :: lit "END-QUERY\n\nRESPONSE:\nNone" from rfl]
  simp [List.append_assoc]

/-- The outer strip of `dedent` removes exactly the wrapping newlines. -/
theorem strip_scaffold (bs re q : Str) :
    pyStrip ('\n' :: (scaffoldCore bs re q ++ ['\n'])) = scaffoldCore bs re q := by
  have hsplit : scaffoldCore bs re q
      = (lit "FINAL: " ++ bs ++ lit "\nREASON: " ++ re ++ lit "\n\nSTART-QUERY\n" ++ q)
        ++ lit "\nEND-QUERY\n\nRESPONSE:\nNone" := by
    simp [scaffoldCore, List.append_assoc]
  unfold pyStrip
  rw [List.dropWhile_cons, if_pos (by decide)]
  have hfront : (scaffoldCore bs re q ++ ['\n']).dropWhile isPySpace
      = scaffoldCore bs re q ++ ['\n'] := by
    have h2 : scaffoldCore bs re q ++ ['\n']
        = lit "FINAL: " ++ (bs ++ lit "\nREASON: " ++ re ++ lit "\n\nSTART-QUERY\n"
          ++ q ++ lit "\nEND-QUERY\n\nRESPONSE:\nNone" ++ ['\n']) := by
      simp [scaffoldCore, List.append_assoc]
    rw [h2]
    exact dropWhile_stop _ _ (by decide) (by decide)
  rw [hfront]
  rw [show (scaffoldCore bs re q ++ ['\n']).reverse
      = '\n' :: (scaffoldCore bs re q).reverse by simp]
  rw [List.dropWhile_cons, if_pos (by decide)]
  rw [hsplit, List.reverse_append]
  rw [dropWhile_stop _ _ (by decide) (by decide)]
  simp

/-- `Sample.format` of a well-scaffolded record is exactly the canonical
scaffold text: `FINAL:`/`REASON:` lines, the `START-QUERY` block holding
the query verbatim, and a `RESPONSE:`/`None` trailer. -/
theorem format_scaffold (r : Sample) (re l0 : Str) (ls : List Str)
    (hre : r.reason = some re)
    (hq : r.query = some (pyJoin ['\n'] (l0 :: ls)))
    (hresp : r.response = none)
    (reNe : re ≠ [])
    (reBF : ∀ c ∈ re, isLineBreak c = false)
    (reSpR : re.reverse.dropWhile isPySpace = re.reverse)
    (qlBF : ∀ x ∈ l0 :: ls, ∀ c ∈ x, isLineBreak c = false)
    (qlSpL : ∀ x ∈ l0 :: ls, x.dropWhile isPySpace = x)
    (qlSpR : ∀ x ∈ l0 :: ls, x.reverse.dropWhile isPySpace = x.reverse) :
    Sample.format r
      = scaffoldCore (pyShowBool r.final) re (pyJoin ['\n'] (l0 :: ls)) := by
  have hbsne : pyShowBool r.final ≠ [] := by cases r.final <;> decide
  have hbsR : (pyShowBool r.final).reverse.dropWhile isPySpace
      = (pyShowBool r.final).reverse := by cases r.final <;> decide
  have hbsBF : ∀ c ∈ pyShowBool r.final, isLineBreak c = false := by
    cases r.final <;> decide
  have hfmt : Sample.format r
      = dedent (scaffoldTemplate (pyShowBool r.final) re (pyJoin ['\n'] (l0 :: ls))) := by
    unfold Sample.format scaffoldTemplate
    rw [hre, hq, hresp]
    rfl
  rw [hfmt]
  unfold dedent
  rw [splitlines_scaffold _ _ _ _ hbsBF reBF qlBF]
  rw [stripmap_scaffold _ _ _ _ hbsne hbsR reNe reSpR
    (qlSpL l0 (by simp)) (qlSpR l0 (by simp))
    (fun x hx => qlSpL x (by simp [hx])) (fun x hx => qlSpR x (by simp [hx]))]
  rw [join_scaffold]
  exact strip_scaffold _ _ _

/-! ### Locating the markers (`re.search` models) -/

/-- Break-free strings contain no newline. -/
theorem noNL_of_bf {s : Str} (h : ∀ c ∈ s, isLineBreak c = false) :
    ∀ c ∈ s, ¬ c = '\n' := by
  intro c hc he
  subst he
  have := h _ hc
  simp [isLineBreak] at this

/-- A newline-free pattern matching as a prefix across text that reaches a
newline must already match inside the newline-free part. -/
theorem isPrefixOf_to_pre {pat : Str} (hnl : '\n' ∉ pat) :
    ∀ (x y : Str), pat.isPrefixOf (x ++ '\n' :: y) = true → pat <+: x := by
  induction pat with
  | nil => intro x y _; exact ⟨x, rfl⟩
  | cons p ps ih =>
    intro x y h
    cases x with
    | nil =>
      exfalso
      simp only [List.nil_append, List.isPrefixOf, Bool.and_eq_true, beq_iff_eq] at h
      exact hnl (h.1 ▸ List.mem_cons_self p ps)
    | cons c x' =>
      simp only [List.cons_append, List.isPrefixOf, Bool.and_eq_true, beq_iff_eq] at h
      obtain ⟨t, ht⟩ := ih (fun hm => hnl (List.mem_cons_of_mem p hm)) x' y h.2
      exact ⟨t, by rw [h.1, List.cons_append, ht]⟩

/-- `isPrefixOf` accepts the first block of an append. -/
theorem isPrefixOf_append_self : ∀ (x y : Str), x.isPrefixOf (x ++ y) = true := by
  intro x y
  induction x with
  | nil => simp [List.isPrefixOf]
  | cons c t ih => simp [List.isPrefixOf, ih]

/-- A prefix occurrence is in particular an occurrence anywhere. -/
theorem infixOfPre {pat x : Str} (h : pat <+: x) : pat <:+: x := by
  obtain ⟨t, ht⟩ := h
  exact ⟨[], t, by simpa using ht⟩

/-- `splitFirst` finds the pattern right at the front. -/
theorem splitFirst_hit (pat y : Str) (hpat : pat ≠ []) :
    splitFirst pat (pat ++ y) = some ([], y) := by
  cases pat with
  | nil => exact absurd rfl hpat
  | cons p ps =>
    have hpre : (p :: ps).isPrefixOf (p :: ps ++ y) = true :=
      isPrefixOf_append_self (p :: ps) y
    rw [List.cons_append]
    unfold splitFirst
    rw [show (p :: (ps ++ y) : Str) = (p :: ps) ++ y from rfl, hpre]
    simp only [if_true]
    rw [show ((p :: ps) ++ y : Str).drop (p :: ps).length = y from List.drop_left _ _]


/-- `splitFirst` walks over a newline-free segment free of the pattern and
over the following newline. -/
theorem splitFirst_skipline {pat : Str} (hnl : '\n' ∉ pat) (hpat : pat ≠ []) :
    ∀ (x : Str), ¬ pat <:+: x → ∀ (y : Str),
    splitFirst pat (x ++ '\n' :: y)
      = (splitFirst pat y).map (fun p => (x ++ '\n' :: p.1, p.2)) := by
  intro x
  induction x with
  | nil =>
    intro _ y
    have hpre : pat.isPrefixOf ('\n' :: y) = false := by
      cases hp : pat.isPrefixOf ('\n' :: y) with
      | false => rfl
      | true =>
        exfalso
        have := isPrefixOf_to_pre hnl [] y (by simpa using hp)
        exact hpat (List.prefix_nil.mp this)
    rw [List.nil_append]
    cases pat with
    | nil => exact absurd rfl hpat
    | cons p ps =>
      conv_lhs => unfold splitFirst
      rw [hpre]
      simp only [Bool.false_eq_true, if_false]
      cases hsf : splitFirst (p :: ps) y with
      | none => rfl
      | some pr =>
        rcases pr with ⟨b2, a2⟩
        simp

  | cons c x' ih =>
    intro hno y
    have hpre : pat.isPrefixOf (c :: x' ++ '\n' :: y) = false := by
      cases hp : pat.isPrefixOf (c :: x' ++ '\n' :: y) with
      | false => rfl
      | true =>
        exfalso
        have hx : pat <+: c :: x' :=
          isPrefixOf_to_pre hnl (c :: x') y (by simpa using hp)
        exact hno (infixOfPre hx)
    rw [List.cons_append]
    cases pat with
    | nil => exact absurd rfl hpat
    | cons p ps =>
      conv_lhs => unfold splitFirst
      rw [show (c :: (x' ++ '\n' :: y) : Str) = c :: x' ++ '\n' :: y from rfl, hpre]
      simp only [Bool.false_eq_true, if_false]
      rw [ih (fun hi => hno (List.infix_cons hi)) y]
      cases hsf : splitFirst (p :: ps) y with
      | none => rfl
      | some pr =>
        rcases pr with ⟨b2, a2⟩
        simp

/-- `ciStartsWith` succeeds on a text beginning with an equal-length
block whose uppercasing matches the pattern's. -/
theorem ciStartsWith_head (pat x z : Str) (hlen : pat.length = x.length)
    (hup : (pyUpper x == pyUpper pat) = true) :
    ciStartsWith pat (x ++ z) = true := by
  unfold ciStartsWith
  rw [hlen, List.take_left]
  rw [Bool.and_eq_true]
  refine ⟨?_, hup⟩
  rw [decide_eq_true_eq, List.length_append]
  exact Nat.le_add_right _ _

/-- `ciStartsWith` on a text starting with itself. -/
theorem ciStartsWith_self_append (pat w : Str) :
    ciStartsWith pat (pat ++ w) = true :=
  ciStartsWith_head pat pat w rfl (by simp)

/-- Taking fewer characters than the first block has stays in the block. -/
theorem take_short (x z : Str) (n : Nat) (h : n ≤ x.length) :
    (x ++ z).take n = x.take n := by
  rw [List.take_append_eq_append_take]
  rw [show n - x.length = 0 from Nat.sub_eq_zero_of_le h]
  simp

/-- `ciStartsWith` fails when the equal-length comparison fails inside a
long-enough first block. -/
theorem ciStartsWith_head_ne (pat x z : Str) (hlen : pat.length ≤ x.length)
    (hup : (pyUpper (x.take pat.length) == pyUpper pat) = false) :
    ciStartsWith pat (x ++ z) = false := by
  unfold ciStartsWith
  rw [take_short x z _ hlen, hup, Bool.and_false]

/-- After the whitespace run of `FINAL: `, the rendered bool is read back. -/
theorem finalAfterMarker_show (b : Bool) (z : Str) :
    finalAfterMarker (lit " " ++ (pyShowBool b ++ z)) = some b := by
  cases b with
  | true =>
    rw [show pyShowBool true = lit "True" from rfl]
    unfold finalAfterMarker
    rw [dropWhile_all (lit " ") (by decide) _]
    rw [dropWhile_stop (lit "True") z (by decide) (by decide)]
    rw [ciStartsWith_head (lit "TRUE") (lit "True") z (by decide) (by decide)]
    simp
  | false =>
    rw [show pyShowBool false = lit "False" from rfl]
    unfold finalAfterMarker
    rw [dropWhile_all (lit " ") (by decide) _]
    rw [dropWhile_stop (lit "False") z (by decide) (by decide)]
    rw [ciStartsWith_head_ne (lit "TRUE") (lit "False") z (by decide) (by decide)]
    rw [ciStartsWith_head (lit "FALSE") (lit "False") z (by decide) (by decide)]
    simp

/-- One scan step of `findFinal`. -/
theorem findFinal_cons (c : Char) (rest : Str) :
    findFinal (c :: rest) = if ciStartsWith (lit "FINAL:") (c :: rest) then
      match finalAfterMarker ((c :: rest).drop 6) with
      | some b => some b
      | none => findFinal rest
    else findFinal rest := rfl

/-- `findFinal` succeeds immediately on a text starting with the marker. -/
theorem findFinal_marker (w : Str) (b : Bool) (hw : finalAfterMarker w = some b) :
    findFinal (lit "FINAL:" ++ w) = some b := by
  rw [show (lit "FINAL:" ++ w : Str) = 'F' :: (lit "INAL:" ++ w) from rfl]
  rw [findFinal_cons]
  rw [show ('F' :: (lit "INAL:" ++ w) : Str) = lit "FINAL:" ++ w from rfl]
  rw [show (6 : Nat) = (lit "FINAL:" : Str).length from rfl]
  rw [List.drop_left, hw]
  simp [ciStartsWith_self_append]

/-- The canonical scaffold's `FINAL:` group is the rendered bool. -/
theorem findFinal_scaffold (b : Bool) (re q : Str) :
    findFinal (scaffoldCore (pyShowBool b) re q) = some b := by
  have hshape : scaffoldCore (pyShowBool b) re q
      = lit "FINAL:" ++ (lit " " ++ (pyShowBool b ++
          (lit "\nREASON: " ++ (re ++ (lit "\n\nSTART-QUERY\n" ++
            (q ++ lit "\nEND-QUERY\n\nRESPONSE:\nNone")))))) := by
    simp only [scaffoldCore]
    rw [show (lit "FINAL: " : Str) = lit "FINAL:" ++ lit " " from rfl]
    simp [List.append_assoc]
  rw [hshape]
  exact findFinal_marker _ b (finalAfterMarker_show b _)

/-- `findReason` on a text whose first `REASON:` occurrence opens a line
`REASON: {re}` followed by more lines: the match is the stripped rest of
that line. -/
theorem findReason_at (x re tail2 : Str)
    (hx : ¬ lit "REASON:" <:+: x)
    (reNe : re ≠ [])
    (reNoNl : ∀ c ∈ re, ¬ c = '\n')
    (reSpL : re.dropWhile isPySpace = re)
    (reSpR : re.reverse.dropWhile isPySpace = re.reverse) :
    findReason (x ++ '\n' ::
      (lit "REASON:" ++ (lit " " ++ (re ++ ('\n' :: tail2))))) = some re := by
  unfold findReason
  rw [splitFirst_skipline (by decide) (by decide) x hx _]
  rw [splitFirst_hit _ _ (by decide)]
  show some (pyStrip (takeToNl
    ((lit " " ++ (re ++ ('\n' :: tail2))).dropWhile isPySpace))) = some re
  rw [dropWhile_all (lit " ") (by decide)]
  rw [dropWhile_stop re ('\n' :: tail2) reSpL reNe]
  rw [takeToNl_append re reNoNl tail2]
  rw [pyStrip_fix reSpL reSpR]

/-- The canonical scaffold's `REASON:` group is the reason itself. -/
theorem findReason_scaffold (b : Bool) (re q : Str)
    (reNe : re ≠ [])
    (reBF : ∀ c ∈ re, isLineBreak c = false)
    (reSpL : re.dropWhile isPySpace = re)
    (reSpR : re.reverse.dropWhile isPySpace = re.reverse) :
    findReason (scaffoldCore (pyShowBool b) re q) = some re := by
  have hshape : scaffoldCore (pyShowBool b) re q
      = (lit "FINAL: " ++ pyShowBool b) ++ '\n' ::
        (lit "REASON:" ++ (lit " " ++ (re ++ ('\n' ::
          (lit "\nSTART-QUERY\n" ++ (q ++ lit "\nEND-QUERY\n\nRESPONSE:\nNone")))))) := by
    simp only [scaffoldCore]
    rw [show (lit "\nREASON: " : Str) = '\n' :: (lit "REASON:" ++ lit " ") from rfl]
    rw [show (lit "\n\nSTART-QUERY\n" : Str) = '\n' :: lit "\nSTART-QUERY\n" from rfl]
    simp [List.append_assoc]
  rw [hshape]
  exact findReason_at _ re _ (by cases b <;> decide) reNe (noNL_of_bf reBF) reSpL reSpR

/-- Stripping a newline-wrapped strip-fixed string recovers it. -/
theorem pyStrip_wrapNl (q : Str) (h1 : q.dropWhile isPySpace = q)
    (h2 : q.reverse.dropWhile isPySpace = q.reverse) (hne : q ≠ []) :
    pyStrip ('\n' :: (q ++ ['\n'])) = q := by
  unfold pyStrip
  rw [List.dropWhile_cons, if_pos (by decide)]
  rw [dropWhile_stop q ['\n'] h1 hne]
  rw [show ((q ++ ['\n']) : Str).reverse = '\n' :: q.reverse by simp]
  rw [List.dropWhile_cons, if_pos (by decide)]
  rw [h2, List.reverse_reverse]

/-- `findQuery` after a successful `START-QUERY` split. -/
theorem findQuery_split {raw x rest : Str}
    (h : splitFirst (lit "START-QUERY") raw = some (x, rest)) :
    findQuery raw = match splitLast (lit "END-QUERY") rest with
      | none => none
      | some (mid, _) => some (pyStrip mid) := by
  unfold findQuery
  rw [h]

/-- The canonical scaffold's query group, stripped, is the query itself:
the first `START-QUERY` and the last `END-QUERY` are the scaffold's own. -/
theorem findQuery_scaffold (b : Bool) (re q : Str)
    (reNoMarker : ¬ (lit "START-QUERY" <:+: (lit "REASON: " ++ re)))
    (qSpL : q.dropWhile isPySpace = q)
    (qSpR : q.reverse.dropWhile isPySpace = q.reverse)
    (qNe : q ≠ []) :
    findQuery (scaffoldCore (pyShowBool b) re q) = some q := by
  have hshape : scaffoldCore (pyShowBool b) re q
      = (lit "FINAL: " ++ pyShowBool b) ++ '\n' ::
        ((lit "REASON: " ++ re) ++ '\n' :: ([] ++ '\n' ::
          (lit "START-QUERY" ++ ('\n' :: (q ++ ('\n' ::
            (lit "END-QUERY" ++ lit "\n\nRESPONSE:\nNone"))))))) := by
    simp only [scaffoldCore]
    rw [show (lit "\nREASON: " : Str) = '\n' :: lit "REASON: " from rfl]
    rw [show (lit "\n\nSTART-QUERY\n" : Str)
        = '\n' :: ('\n' :: (lit "START-QUERY" ++ ['\n'])) from rfl]
    rw [show (lit "\nEND-QUERY\n\nRESPONSE:\nNone" : Str)
        = '\n' :: (lit "END-QUERY" ++ lit "\n\nRESPONSE:\nNone") from rfl]
    simp [List.append_assoc]
  have hsplit : splitFirst (lit "START-QUERY") (scaffoldCore (pyShowBool b) re q)
      = some ((lit "FINAL: " ++ pyShowBool b) ++ '\n' ::
          ((lit "REASON: " ++ re) ++ '\n' :: ([] ++ '\n' :: [])),
        '\n' :: (q ++ ('\n' :: (lit "END-QUERY" ++ lit "\n\nRESPONSE:\nNone")))) := by
    rw [hshape]
    rw [splitFirst_skipline (by decide) (by decide)
      (lit "FINAL: " ++ pyShowBool b) (by cases b <;> decide) _]
    rw [splitFirst_skipline (by decide) (by decide)
      (lit "REASON: " ++ re) reNoMarker _]
    rw [splitFirst_skipline (by decide) (by decide) [] (by decide) _]
    rw [splitFirst_hit (lit "START-QUERY") _ (by decide)]
    rfl
  have hrev2 : ('\n' :: (q ++ ('\n' ::
      (lit "END-QUERY" ++ lit "\n\nRESPONSE:\nNone"))) : Str).reverse
      = lit "enoN" ++ '\n' :: (lit ":ESNOPSER" ++ '\n' :: ([] ++ '\n' ::
          (lit "YREUQ-DNE" ++ ('\n' :: (q.reverse ++ ['\n']))))) := by
    simp only [List.reverse_cons, List.reverse_append, List.append_assoc]
    rw [show (lit "\n\nRESPONSE:\nNone" : Str).reverse
        = lit "enoN" ++ '\n' :: (lit ":ESNOPSER" ++ '\n' :: ('\n' :: [])) from by decide]
    rw [show (lit "END-QUERY" : Str).reverse = lit "YREUQ-DNE" from by decide]
    simp [List.append_assoc]
  have hlast : splitLast (lit "END-QUERY")
      ('\n' :: (q ++ ('\n' :: (lit "END-QUERY" ++ lit "\n\nRESPONSE:\nNone"))))
      = some ('\n' :: (q ++ ['\n']),
          '\n' :: ('\n' :: (lit "RESPONSE:" ++ ('\n' :: lit "None")))) := by
    unfold splitLast
    rw [show (lit "END-QUERY" : Str).reverse = lit "YREUQ-DNE" from by decide]
    rw [hrev2]
    rw [splitFirst_skipline (by decide) (by decide) (lit "enoN") (by decide) _]
    rw [splitFirst_skipline (by decide) (by decide) (lit ":ESNOPSER") (by decide) _]
    rw [splitFirst_skipline (by decide) (by decide) [] (by decide) _]
    rw [splitFirst_hit (lit "YREUQ-DNE") _ (by decide)]
    simp [List.reverse_append, List.append_assoc,
      show (lit "enoN" : Str).reverse = lit "None" from by decide,
      show (lit ":ESNOPSER" : Str).reverse = lit "RESPONSE:" from by decide]
  rw [findQuery_split hsplit, hlast]
  show some (pyStrip ('\n' :: (q ++ ['\n']))) = some q
  rw [pyStrip_wrapNl q qSpL qSpR qNe]

/-- A newline-join of nonempty lines is nonempty. -/
theorem joinNl_ne (l0 : Str) (ls : List Str) (h : l0 ≠ []) :
    pyJoin ['\n'] (l0 :: ls) ≠ [] := by
  cases ls with
  | nil => simpa [pyJoin] using h
  | cons y t =>
    rw [pyJoin_cons ['\n'] l0 (y :: t) (by simp)]
    simp

/-- A newline-join of left-stripped lines with a nonempty first line is
left-stripped. -/
theorem joinNl_spL (l0 : Str) (ls : List Str)
    (h0 : l0.dropWhile isPySpace = l0) (hne : l0 ≠ []) :
    (pyJoin ['\n'] (l0 :: ls)).dropWhile isPySpace = pyJoin ['\n'] (l0 :: ls) := by
  cases ls with
  | nil => simpa [pyJoin] using h0
  | cons y t =>
    rw [pyJoin_cons ['\n'] l0 (y :: t) (by simp), List.append_assoc]
    exact dropWhile_stop l0 _ h0 hne

/-- A newline-join of right-stripped nonempty lines is right-stripped. -/
theorem joinNl_spR : ∀ (l0 : Str) (ls : List Str),
    (∀ x ∈ l0 :: ls, x.reverse.dropWhile isPySpace = x.reverse) →
    (∀ x ∈ l0 :: ls, x ≠ []) →
    (pyJoin ['\n'] (l0 :: ls)).reverse.dropWhile isPySpace
      = (pyJoin ['\n'] (l0 :: ls)).reverse := by
  intro l0 ls
  induction ls generalizing l0 with
  | nil =>
    intro h _
    simpa [pyJoin] using h l0 (by simp)
  | cons y t ih =>
    intro h hne
    have hJ := ih y (fun x hx => h x (by simp [List.mem_cons] at hx ⊢; tauto))
      (fun x hx => hne x (by simp [List.mem_cons] at hx ⊢; tauto))
    have hJne : pyJoin ['\n'] (y :: t) ≠ [] := joinNl_ne y t (hne y (by simp))
    rw [pyJoin_cons ['\n'] l0 (y :: t) (by simp)]
    rw [show ((l0 ++ ['\n']) ++ pyJoin ['\n'] (y :: t)).reverse
        = (pyJoin ['\n'] (y :: t)).reverse ++ ('\n' :: l0.reverse) by simp]
    exact dropWhile_stop _ _ hJ (by simpa using hJne)

/-- `Sample.parse` when all three groups match. -/
theorem parse_of_finds (env : Env) (raw : Str) (b : Bool) (re q : Str)
    (hF : findFinal raw = some b) (hR : findReason raw = some re)
    (hQ : findQuery raw = some q) :
    Sample.parse env raw = Sample.make b (some re) (some q) := by
  simp only [Sample.parse]
  rw [hF, hR, hQ]
  simp

/-- Parsing the canonical scaffold recovers all three fields. -/
theorem parse_scaffold (env : Env) (b : Bool) (re q : Str)
    (reNe : re ≠ [])
    (reBF : ∀ c ∈ re, isLineBreak c = false)
    (reSpL : re.dropWhile isPySpace = re)
    (reSpR : re.reverse.dropWhile isPySpace = re.reverse)
    (reNoMarker : ¬ (lit "START-QUERY" <:+: (lit "REASON: " ++ re)))
    (qSpL : q.dropWhile isPySpace = q)
    (qSpR : q.reverse.dropWhile isPySpace = q.reverse)
    (qNe : q ≠ []) :
    Sample.parse env (scaffoldCore (pyShowBool b) re q)
      = Sample.make b (some re) (some q) :=
  parse_of_finds env _ b re q
    (findFinal_scaffold b re q)
    (findReason_scaffold b re q reNe reBF reSpL reSpR)
    (findQuery_scaffold b re q reNoMarker qSpL qSpR qNe)

/-- C8 (amended): `parse(format(record))` reconstructs `final`, `reason`
and `query` exactly for every record of the scaffolding grammar whose
reason is a nonempty, stripped, break-free line not containing the
`START-QUERY` marker (in context `REASON: {reason}`), whose query is a
newline-join of nonempty, stripped, break-free lines, and whose response
is not yet set.  (The counterexample `C8_counterexample` shows the claim
fails without the nonempty-reason proviso: an empty reason makes the
`REASON:` group capture the following `START-QUERY` line.) -/
theorem C8_roundtrip (env : Env) (r : Sample) (re l0 : Str) (ls : List Str)
    (hre : r.reason = some re)
    (hq : r.query = some (pyJoin ['\n'] (l0 :: ls)))
    (hresp : r.response = none)
    (reNe : re ≠ [])
    (reBF : ∀ c ∈ re, isLineBreak c = false)
    (reSpL : re.dropWhile isPySpace = re)
    (reSpR : re.reverse.dropWhile isPySpace = re.reverse)
    (reNoMarker : ¬ (lit "START-QUERY" <:+: (lit "REASON: " ++ re)))
    (qlBF : ∀ x ∈ l0 :: ls, ∀ c ∈ x, isLineBreak c = false)
    (qlSpL : ∀ x ∈ l0 :: ls, x.dropWhile isPySpace = x)
    (qlSpR : ∀ x ∈ l0 :: ls, x.reverse.dropWhile isPySpace = x.reverse)
    (qlNe : ∀ x ∈ l0 :: ls, x ≠ []) :
    (Sample.parse env (Sample.format r)).final = r.final ∧
    (Sample.parse env (Sample.format r)).reason = r.reason ∧
    (Sample.parse env (Sample.format r)).query = r.query := by
  rw [format_scaffold r re l0 ls hre hq hresp reNe reBF reSpR qlBF qlSpL qlSpR]
  rw [parse_scaffold env r.final re (pyJoin ['\n'] (l0 :: ls))
    reNe reBF reSpL reSpR reNoMarker
    (joinNl_spL l0 ls (qlSpL l0 (by simp)) (qlNe l0 (by simp)))
    (joinNl_spR l0 ls qlSpR qlNe)
    (joinNl_ne l0 ls (qlNe l0 (by simp)))]
  exact ⟨rfl, hre.symm, hq.symm⟩

/-- Roundtrip fixture: the first shipped example record, before any
response population. -/
def c8rec : Sample :=
  Sample.make false
    (some (lit "I need to know what version of sqlite I am using."))
    (some (lit "SELECT sqlite_version();"))

/-- Concrete instantiation of the amended C8 roundtrip. -/
theorem C8_roundtrip_witness :
    (Sample.parse envAccept (Sample.format c8rec)).final = c8rec.final ∧
    (Sample.parse envAccept (Sample.format c8rec)).reason = c8rec.reason ∧
    (Sample.parse envAccept (Sample.format c8rec)).query = c8rec.query :=
  C8_roundtrip envAccept c8rec
    (lit "I need to know what version of sqlite I am using.")
    (lit "SELECT sqlite_version();") []
    rfl rfl rfl
    (by decide) (by decide) (by decide) (by decide) (by decide)
    (by decide) (by decide) (by decide) (by decide)

end GptDo
